import Mathlib

/-
  Verification development for the pygeoapi OGC API - Joins manager
  (src/pygeoapi/join/manager.py).

  The Python code is shallowly embedded: pure computations become Lean
  functions, the on-disk state (TinyDB index + JSON source files) becomes an
  explicit `Store` value threaded through the operations, and Python
  exceptions become an `Except PyErr` result.  External collaborators that
  are not part of the repository sources (the `csv` module's RFC 4180 lexer,
  `uuid.uuid4`, `pygeoapi.util` datetime helpers, the filesystem and the
  feature provider base class) are modelled at their interface:
  a CSV upload is given as the list of its physical lines already split
  into cell lists, timestamps are abstract naturals ordered like datetimes,
  and the fresh UUID is an input parameter.
-/

namespace Joins

/-- Python `None`-or-`str` cell values are `Option String`; a JSON value
written by the manager for a cell is a string or `null`. -/
abbrev Cell := Option String

/-- Python whitespace test used by `str.strip` (ASCII part; the Unicode
extras Python also strips do not occur in any input considered here). -/
def isSpace (c : Char) : Bool :=
  c = ' ' || c = '\t' || c = '\n' || c = '\r' || c = '\x0b' || c = '\x0c'

/-- Drop trailing characters satisfying `isSpace`. -/
def dropTrailing (l : List Char) : List Char :=
  ((l.reverse).dropWhile isSpace).reverse

/-- `str.strip()` on the character list: drop leading and trailing whitespace. -/
def stripChars (l : List Char) : List Char :=
  dropTrailing (l.dropWhile isSpace)

/-- Python `str.strip()`. -/
def pystrip (s : String) : String :=
  String.mk (stripChars s.data)

/-- Index of the last occurrence of `f` in `l`, if any.  `csv.DictReader`
builds each row as `dict(zip(fieldnames, row))` and then fills missing
trailing fields with `restval`; the net effect is that a field name maps to
the cell at its last occurrence in the header (None when that index is past
the end of the row). -/
def lastIdxOf (f : String) : List String → Option Nat
  | [] => none
  | a :: t =>
    match lastIdxOf f t with
    | some i => some (i + 1)
    | none => if a = f then some 0 else none

/-- The value `DictReader` associates to header name `f` for a data row
`cells`: the cell at the last occurrence of `f` in `header`, or `none`
(Python `None`, the default `restval`) when the row is shorter.  Meaningful
only for `f` that occurs in `header`. -/
def cellAt (header : List String) (cells : List String) (f : String) : Cell :=
  (lastIdxOf f header).bind (fun i => cells.get? i)

/-- Python `row_dict.get(key, '')`: `some ""` when the key is not a header
name at all, otherwise the (possibly `None`) cell value. -/
def rowGetD (header : List String) (cells : List String) (f : String) : Cell :=
  if header.contains f then cellAt header cells f else some ""

/-- Whether some field of the row holds a cell that is a non-`None` string
with non-blank strip (a truthy value under Python's `if v` filter whose
`.strip()` is truthy). -/
def hasNonBlankCell (header : List String) (cells : List String) : Bool :=
  (header.eraseDups).any fun f =>
    match cellAt header cells f with
    | some s => pystrip s ≠ ""
    | none => false

/-- Equality of modelled Python results is decidable (used to evaluate the
model at concrete inputs). -/
instance instDecEqExcept {e a : Type} [DecidableEq e] [DecidableEq a] :
    DecidableEq (Except e a) := fun x y =>
  match x, y with
  | .ok v, .ok w =>
    if h : v = w then .isTrue (by rw [h]) else
      .isFalse (by intro hc; cases hc; exact h rfl)
  | .error v, .error w =>
    if h : v = w then .isTrue (by rw [h]) else
      .isFalse (by intro hc; cases hc; exact h rfl)
  | .ok _, .error _ => .isFalse (by intro hc; cases hc)
  | .error _, .ok _ => .isFalse (by intro hc; cases hc)

/-- Closed model of the Python exceptions the manager raises or lets
propagate. -/
inductive PyErr
  | keyError (key : String)
  | valueError (msg : String)
  | attributeError (msg : String)
  | typeError (msg : String)
  | stopIteration
  | notFoundError (msg : String)
  | missingError (msg : String)
deriving DecidableEq

/-- The manager's empty-row test
`not any(v.strip() for v in row_dict.values() if v)`, evaluated as Python
does.  `row_dict.values()` yields the distinct header names' cells first
and — when the row is LONGER than the header — `DictReader`'s restkey list
(the surplus cells) last.  A non-blank string cell short-circuits `any` to
true (`.ok false`: the row is not blank); otherwise, if a non-empty restkey
list is reached, `.strip()` on a list raises `AttributeError`; otherwise
the row is blank (`.ok true`) and skipped. -/
def blankRowCheck (header : List String) (cells : List String) :
    Except PyErr Bool :=
  if hasNonBlankCell header cells then .ok false
  else if header.length < cells.length then
    .error (.attributeError "list object has no attribute strip")
  else .ok true

/-- A materialized join source, as built by `process_csv` and persisted as
`table-<id>.json` (manager.py lines 501-511).  `timeStamp` is the abstract
creation instant (ISO rendering is external `util.get_current_datetime`);
`data` is the insertion-ordered dict `key -> row`. -/
structure JoinTable where
  id : String
  timeStamp : Nat
  collectionId : String
  collectionKey : String
  joinSource : String
  joinKey : String
  joinFields : List String
  numberOfRows : Nat
  data : List (String × List Cell)
deriving DecidableEq

/-- The slice of `pygeoapi.provider.base.BaseProvider` the manager consumes:
`type`, the key set of `get_key_fields()` and the key set of `get_fields()`
(provider code is outside this repository's sources). -/
structure BaseProvider where
  type : String
  keyFields : List String
  fields : List String
deriving DecidableEq

/-- `pygeoapi.util.FileObject` carrying the upload.  `lines` holds the
physical lines of the file after the external `csv` module has split each
into its cells with the configured delimiter (RFC 4180 lexing is Python's
stdlib, outside this model). -/
structure FileObject where
  name : String
  contentType : String
  lines : List (List String)
deriving DecidableEq

/-- The multipart form options of `process_csv`; a `none` member is an
absent key (Python `KeyError` on required ones).  The numeric options are
already `int`-converted as the code does. -/
structure FormData where
  collectionKey : Option String
  joinKey : Option String
  joinFile : Option FileObject
  joinFields : Option String
  csvDelimiter : Option String
  csvHeaderRow : Option Int
  csvDataStartRow : Option Int
deriving DecidableEq

/-- Python `str.split(',')` (structural recursion over the characters; the
empty string splits to `['']` exactly as in Python). -/
def splitCommasAux : List Char → List Char → List String
  | [], cur => [String.mk cur.reverse]
  | ch :: rest, cur =>
    if ch = ',' then String.mk cur.reverse :: splitCommasAux rest []
    else splitCommasAux rest (ch :: cur)

/-- Python `str.split(',')`. -/
def splitCommas (s : String) : List String :=
  splitCommasAux s.data []

/-- The user's `joinFields` option, comma-split, stripped, empties removed
(manager.py lines 439-441). -/
def userFieldList (s : String) : List String :=
  ((splitCommas s).map pystrip).filter (fun f => f ≠ "")

/-- Effective join fields (manager.py lines 443-457): the user's whitelist
filtered to existing, non-conflicting, non-key columns, or all
non-conflicting, non-key header columns when no whitelist was given. -/
def computeJoinFields (header : List String) (rightKey : String)
    (userFields : List String) (collectionFields : List String) : List String :=
  if userFields ≠ [] then
    userFields.filter fun f =>
      ¬ collectionFields.contains f ∧ header.contains f ∧ f ≠ rightKey
  else
    header.filter fun f => ¬ collectionFields.contains f ∧ f ≠ rightKey

/-- The data-row loop of `process_csv` (manager.py lines 469-488), folded
over the remaining records with the accumulated `join_data` dict. -/
def ingestRows (header : List String) (rightKey : String)
    (joinFields : List String) :
    List (List String) → List (String × List Cell) →
    Except PyErr (List (String × List Cell))
  | [], acc => .ok acc
  | cells :: rest, acc =>
    match blankRowCheck header cells with
    | .error e => .error e
    | .ok true => ingestRows header rightKey joinFields rest acc
    | .ok false =>
      match rowGetD header cells rightKey with
      | none =>
        -- `row_dict.get(joinKey, '')` returned Python None: `.strip()` raises
        .error (.attributeError "NoneType object has no attribute strip")
      | some raw =>
        let key := pystrip raw
        if key = "" then
          .error (.valueError "found empty or missing key")
        else if (acc.map Prod.fst).contains key then
          .error (.valueError ("found duplicate key (" ++ key ++ ")"))
        else
          ingestRows header rightKey joinFields rest
            (acc ++ [(key, joinFields.map (cellAt header cells))])

/-- The body of the `try` block of `process_csv` (manager.py lines 404-490):
line-count validation, header parse, join-field computation, row skipping
and the ingest loop.  Returns the effective join fields and the data dict. -/
def parsePhase (lines : List (List String)) (headerRow dataStart : Int)
    (rightKey : String) (userFields : List String)
    (collectionFields : List String) :
    Except PyErr (List String × List (String × List Cell)) :=
  let numLines : Int := lines.length
  if headerRow > numLines then
    .error (.valueError "csvHeaderRow exceeds number of CSV rows")
  else if dataStart > numLines then
    .error (.valueError "csvDataStartRow exceeds number of CSV rows")
  else
    let header := lines.getD (headerRow.toNat - 1) []
    if ¬ header.contains rightKey then
      .error (.valueError ("key field (" ++ rightKey ++ ") not found in CSV fields"))
    else
      let joinFields := computeJoinFields header rightKey userFields collectionFields
      -- DictReader iteration skips records that are empty lists
      let records := (lines.drop headerRow.toNat).filter (fun r => r ≠ [])
      let rowsToSkip := (dataStart - headerRow - 1).toNat
      if records.length < rowsToSkip then
        .error .stopIteration
      else
        match ingestRows header rightKey joinFields (records.drop rowsToSkip) [] with
        | .error e => .error e
        | .ok data => .ok (joinFields, data)

/-- The `except (UnicodeDecodeError, ValueError)` re-raise of `process_csv`
(manager.py lines 492-494): inner ValueErrors are wrapped, everything else
propagates unchanged. -/
def wrapCSVErr : PyErr → PyErr
  | .valueError m => .valueError ("failed to process CSV: " ++ m)
  | e => e

/-- `JoinManager.process_csv` (manager.py lines 325-511) up to, and
excluding, its persistence side effects: validates the provider, options and
upload, parses the CSV and produces the `JoinTable`.  `freshId` stands for
`str(uuid.uuid4())` and `now` for `util.get_current_datetime()`, both
external. -/
def process_csv (collectionId : String) (prov : BaseProvider) (form : FormData)
    (freshId : String) (now : Nat) : Except PyErr JoinTable :=
  if prov.type ≠ "feature" then
    .error (.valueError "join source must be linked to a feature provider")
  else
    match form.collectionKey, form.joinKey, form.joinFile with
    | none, _, _ => .error (.keyError "collectionKey")
    | some _, none, _ => .error (.keyError "joinKey")
    | some _, some _, none => .error (.keyError "joinFile")
    | some leftKey, some rightKey, some csvData =>
      if ¬ prov.keyFields.contains leftKey then
        .error (.valueError ("collectionKey (" ++ leftKey ++ ") not found in feature collection"))
      else if csvData.contentType ≠ "text/csv" ∧ csvData.contentType ≠ "application/csv" then
        .error (.valueError "join source data must be of type text/csv")
      else
        let delim := form.csvDelimiter.getD ","
        let headerRow := form.csvHeaderRow.getD 1
        let dataStart := form.csvDataStartRow.getD 2
        if delim.length ≠ 1 then
          .error (.valueError "csvDelimiter must be a single character")
        else if headerRow < 1 then
          .error (.valueError "csvHeaderRow must be at least 1")
        else if dataStart ≤ headerRow then
          .error (.valueError "csvDataStartRow must be greater than csvHeaderRow")
        else
          match parsePhase csvData.lines headerRow dataStart rightKey
              (userFieldList (form.joinFields.getD "")) prov.fields with
          | .error e => .error (wrapCSVErr e)
          | .ok (joinFields, data) =>
            .ok {
              id := freshId
              timeStamp := now
              collectionId := collectionId
              collectionKey := leftKey
              joinSource := csvData.name
              joinKey := rightKey
              joinFields := joinFields
              numberOfRows := data.length
              data := data
            }

/-- Modelled from the spec: `JoinManager._valid_id` parses the id with the
external `uuid.UUID` constructor; the spec pins persisted ids to the
canonical 8-4-4-4-12 hyphenated hex form, which is what this predicate
checks (Python additionally accepts some legacy spellings; none occur
here). -/
def valid_id (s : String) : Bool :=
  let isHex : Char → Bool := fun c =>
    c.isDigit ∨ ('a' ≤ c ∧ c ≤ 'f') ∨ ('A' ≤ c ∧ c ≤ 'F')
  let cs := s.data
  cs.length = 36 ∧
  (List.range 36).all fun i =>
    if i = 8 ∨ i = 13 ∨ i = 18 ∨ i = 23 then cs.getD i ' ' = '-'
    else isHex (cs.getD i ' ')

/-- A TinyDB document of the side index `join_sources.tinydb`
(manager.py lines 524-531): `{id, collectionId, timeStamp, joinSource,
ref}`. -/
structure SourceDoc where
  id : String
  collectionId : String
  timeStamp : Nat
  joinSource : String
  ref : String
deriving DecidableEq

/-- The manager's shared on-disk state: the TinyDB documents in insertion
order and the JSON source files as a path-keyed association list.  A file's
content is its decoded `JoinTable` (JSON encode/decode is external and
lossless for this data). -/
structure Store where
  docs : List SourceDoc
  files : List (String × JoinTable)
deriving DecidableEq

/-- `JoinManager._make_source_path`: the file name `table-<id>.json`
(the constant `source_dir` prefix is elided from modelled paths). -/
def make_source_path (joinId : String) : String :=
  "table-" ++ joinId ++ ".json"

/-- TinyDB `db.upsert(doc, (q.id == id) & (q.collectionId == cid))`:
update every matching document in place, or append. -/
def upsertDoc (docs : List SourceDoc) (d : SourceDoc) : List SourceDoc :=
  if docs.any (fun x => x.id = d.id ∧ x.collectionId = d.collectionId) then
    docs.map fun x =>
      if x.id = d.id ∧ x.collectionId = d.collectionId then d else x
  else docs ++ [d]

/-- `JoinManager._build_refs` (manager.py lines 172-196): scan the source
files on disk, upsert a reference document for each into the index, and
return the scanned documents.  In the model every `Store.files` entry is a
decodable source file matching the name pattern. -/
def build_refs_docs (st : Store) : List SourceDoc :=
  st.files.map fun p =>
    { id := p.2.id, collectionId := p.2.collectionId,
      timeStamp := p.2.timeStamp, joinSource := p.2.joinSource, ref := p.1 }

/-- Remove every index document matching `(collectionId, id)`
(TinyDB `db.remove((q.collectionId == c) & (q.id == i))`). -/
def removeDoc (docs : List SourceDoc) (c i : String) : List SourceDoc :=
  docs.filter fun d => ¬ (d.id = i ∧ d.collectionId = c)

/-- Delete a file path from disk (`_delete_source`; deletions succeed in
this model, the I/O-failure branch is unreachable). -/
def deleteFile (files : List (String × JoinTable)) (path : String) :
    List (String × JoinTable) :=
  files.filter fun p => p.1 ≠ path

/-- Stable insertion by timestamp, realizing Python's stable
`sorted(..., key=itemgetter(0))`. -/
def insertByTs (x : Nat × String × String) :
    List (Nat × String × String) → List (Nat × String × String)
  | [] => [x]
  | y :: ys => if x.1 ≤ y.1 then x :: y :: ys else y :: insertByTs x ys

/-- Stable ascending sort by timestamp. -/
def sortByTs (l : List (Nat × String × String)) : List (Nat × String × String) :=
  l.foldr insertByTs []

/-- Apply the cleanup deletions for collection `c`: unlink each file and
remove its index documents (`_cleanup_sources` delete branches; silent
deletes succeed in the model). -/
def applyDeletions (st : Store) (c : String) :
    List (Nat × String × String) → Store
  | [] => st
  | (_, sourceId, ref) :: rest =>
    applyDeletions
      { docs := removeDoc st.docs c sourceId,
        files := deleteFile st.files ref } c rest

/-- One collection's share of `_cleanup_sources` (manager.py lines
239-266): sort the scanned sources ascending by timestamp; pass 1 deletes
entries older than `maxDays` (when configured); pass 2, entered when
`0 < maxFiles < len(sources)`, deletes `list(reversed(source_items))[:maxFiles]`
— the `maxFiles` NEWEST entries.  (`sources` is the scan result and is not
mutated by pass 1, so pass 2's length test and slice use the full list.) -/
def cleanupCollection (maxDays maxFiles now : Nat) (st : Store) (c : String)
    (sources : List SourceDoc) : Store :=
  let items := sortByTs (sources.map fun d => (d.timeStamp, d.id, d.ref))
  let del1 := if maxDays > 0 then
      items.filter (fun x => now - x.1 > maxDays) else []
  let del2 := if 0 < maxFiles ∧ maxFiles < sources.length then
      items.reverse.take maxFiles else []
  applyDeletions (applyDeletions st c del1) c del2

/-- `JoinManager._cleanup_sources` (manager.py lines 227-266): rebuild the
references from disk, then run both retention passes per collection.
Timestamps are abstract day counts, standing for
`util.str_to_datetime` values compared against `timedelta(days=maxDays)`. -/
def cleanup_sources (maxDays maxFiles now : Nat) (st : Store) : Store :=
  let scanned := build_refs_docs st
  let st1 : Store := { st with docs := scanned.foldl upsertDoc st.docs }
  let colls := (scanned.map (fun d => d.collectionId)).eraseDups
  colls.foldl
    (fun acc c => cleanupCollection maxDays maxFiles now acc c
      (scanned.filter (fun d => d.collectionId = c)))
    st1

/-- Write `table` to its JSON file (overwriting as `open(..., 'w')` does)
and `db.insert` its reference document (manager.py lines 516-531). -/
def putTable (st : Store) (t : JoinTable) : Store :=
  let path := make_source_path t.id
  let files :=
    if st.files.any (fun p => p.1 = path) then
      st.files.map fun p => if p.1 = path then (path, t) else p
    else st.files ++ [(path, t)]
  { docs := st.docs ++
      [{ id := t.id, collectionId := t.collectionId, timeStamp := t.timeStamp,
         joinSource := t.joinSource, ref := path }],
    files := files }

/-- `process_csv` including its persistence effects, as a transition on the
store: on any error the store is untouched (the code performs no write
before the parse completes); on success the lazy cleanup runs and then the
file and index document are written. -/
def process_csv_step (st : Store) (maxDays maxFiles : Nat)
    (collectionId : String) (prov : BaseProvider) (form : FormData)
    (freshId : String) (now : Nat) : Except PyErr JoinTable × Store :=
  match process_csv collectionId prov form freshId now with
  | .error e => (.error e, st)
  | .ok t => (.ok t, putTable (cleanup_sources maxDays maxFiles now st) t)

/-- `JoinManager._find_source_path` (manager.py lines 280-310): consult the
index; `JoinSourceNotFoundError` when no document, `JoinSourceMissingError`
— after reaping the orphaned document — when the file is gone. -/
def find_source_path (st : Store) (collectionId joinId : String) :
    Except PyErr String × Store :=
  match st.docs.find? (fun d => d.id = joinId ∧ d.collectionId = collectionId) with
  | none => (.error (.notFoundError "join source not found"), st)
  | some doc =>
    if st.files.any (fun p => p.1 = doc.ref) then (.ok doc.ref, st)
    else
      (.error (.missingError "join source was removed"),
       { st with docs := removeDoc st.docs collectionId joinId })

/-- `JoinManager.read_join_source` (manager.py lines 566-587). -/
def read_join_source (st : Store) (collectionId joinId : String) :
    Except PyErr JoinTable × Store :=
  if ¬ valid_id joinId then
    (.error (.valueError "invalid join source ID"), st)
  else
    match find_source_path st collectionId joinId with
    | (.error e, st1) => (.error e, st1)
    | (.ok ref, st1) =>
      match st1.files.lookup ref with
      | some t => (.ok t, st1)
      | none => (.error (.missingError "join source was removed"), st1)

/-- `JoinManager.list_sources` (manager.py lines 535-564): the documents of
the collection whose files still exist; orphaned documents are reaped. -/
def list_sources (st : Store) (collectionId : String) :
    List SourceDoc × Store :=
  let sources := st.docs.filter (fun d => d.collectionId = collectionId)
  let valid := sources.filter (fun d => st.files.any (fun p => p.1 = d.ref))
  (valid,
   { st with docs := st.docs.filter fun d =>
      ¬ (d.collectionId = collectionId ∧ ¬ st.files.any (fun p => p.1 = d.ref)) })

/-- `JoinManager.remove_source` (manager.py lines 631-662): `False` when the
index has no entry, `True` when the entry was an orphan (reaped by
`_find_source_path`) and `True` after deleting file and entry. -/
def remove_source (st : Store) (collectionId joinId : String) :
    Except PyErr Bool × Store :=
  if ¬ valid_id joinId then
    (.error (.valueError "invalid join source ID"), st)
  else
    match find_source_path st collectionId joinId with
    | (.error (.notFoundError _), st1) => (.ok false, st1)
    | (.error (.missingError _), st1) => (.ok true, st1)
    | (.error e, st1) => (.error e, st1)
    | (.ok ref, st1) =>
      (.ok true,
       { docs := removeDoc st1.docs collectionId joinId,
         files := deleteFile st1.files ref })

/-- A GeoJSON property value as the enricher sees it: a string, an int, or
Python `None` (other JSON shapes behave like these under `str()` for the
purposes modelled here). -/
inductive PVal
  | s (v : String)
  | i (v : Int)
  | null
deriving DecidableEq

/-- Python `str()` on a property value (used for the key lookup:
`str(feature['properties'].get(collection_key, ''))`). -/
def pyStr : PVal → String
  | .s v => v
  | .i v => toString v
  | .null => "None"

/-- The cell of a join row as a property value: a JSON string stays a
string, a JSON `null` becomes Python `None`. -/
def cellVal : Cell → PVal
  | some s => .s s
  | none => .null

/-- A GeoJSON feature as a member-wise dict: its `properties` member (absent
when `none`; keys are unique since it is a Python dict) and its `joined`
foreign member. -/
structure Feat where
  props : Option (List (String × PVal))
  joined : Option Bool
deriving DecidableEq

/-- The dict handed to `perform_join`: its `type`, `features`, `numberJoined`
members and — for when it is treated as a single feature — its own feature
members (`feat`). -/
structure GeoDoc where
  type : Option String
  features : Option (List Feat)
  feat : Feat
  numberJoined : Option Nat
deriving DecidableEq

/-- Python dict lookup on a property bag. -/
def lookupProp (ps : List (String × PVal)) (f : String) : Option PVal :=
  (ps.find? (fun p => p.1 = f)).map Prod.snd

/-- Python dict assignment `properties[field] = value`: replace the value at
the existing key (keys are unique in a Python dict, so replacing the first
occurrence is the dict update) keeping its position, or append a new
entry. -/
def setProp (f : String) (v : PVal) : List (String × PVal) →
    List (String × PVal)
  | [] => [(f, v)]
  | q :: t => if q.1 = f then (f, v) :: t else q :: setProp f v t

/-- The key `perform_join` looks up for a feature:
`str(feature['properties'].get(collection_key, ''))`. -/
def featKey (t : JoinTable) (ps : List (String × PVal)) : String :=
  pyStr ((lookupProp ps t.collectionKey).getD (.s ""))

/-- The row fetched for a feature: `join_data.get(key, [])`. -/
def featRow (t : JoinTable) (ps : List (String × PVal)) : List Cell :=
  (t.data.lookup (featKey t ps)).getD []

/-- The per-feature body of `perform_join` (manager.py lines 614-625) on a
properties bag: key lookup, row fetch, `zip(join_fields, join_row)`
assignments; returns the new bag and the `joined` status
(`bool(join_row)`). -/
def joinProps (t : JoinTable) (ps : List (String × PVal)) :
    List (String × PVal) × Bool :=
  let joinRow := featRow t ps
  let ps1 := (t.joinFields.zip joinRow).foldl
    (fun acc fv => setProp fv.1 (cellVal fv.2) acc) ps
  (ps1, joinRow ≠ [])

/-- `perform_join` on one feature: `feature['properties']` raises `KeyError`
when the member is absent; otherwise the properties are enriched and the
`joined` foreign member set. -/
def joinFeat (t : JoinTable) (ft : Feat) : Except PyErr Feat :=
  match ft.props with
  | none => .error (.keyError "properties")
  | some ps =>
    let r := joinProps t ps
    .ok { props := some r.1, joined := some r.2 }

/-- `perform_join` over the feature list, also accumulating `join_count`. -/
def joinFeats (t : JoinTable) : List Feat → Except PyErr (List Feat × Nat)
  | [] => .ok ([], 0)
  | ft :: rest =>
    match joinFeat t ft with
    | .error e => .error e
    | .ok ft1 =>
      match joinFeats t rest with
      | .error e => .error e
      | .ok (rest1, n) =>
        .ok (ft1 :: rest1, (if ft1.joined = some true then 1 else 0) + n)

/-- `JoinManager.perform_join` (manager.py lines 589-629) given the already
read join table: `features['type']` raises `KeyError` when absent; the input
is a collection exactly when it has a `features` member AND its type is
`FeatureCollection`, and is otherwise treated as a single feature; in
collection mode `numberJoined` is set to the join count. -/
def perform_join (t : JoinTable) (d : GeoDoc) : Except PyErr GeoDoc :=
  match d.type with
  | none => .error (.keyError "type")
  | some ty =>
    match d.features, decide (ty = "FeatureCollection") with
    | some fts, true =>
      match joinFeats t fts with
      | .error e => .error e
      | .ok (fts1, n) =>
        .ok { d with features := some fts1, numberJoined := some n }
    | _, _ =>
      match joinFeat t d.feat with
      | .error e => .error e
      | .ok ft1 => .ok { d with feat := ft1 }

/-- A configuration value (`from_config` receives arbitrary YAML-decoded
data below its dict signature). -/
inductive CVal
  | dict (entries : List (String × CVal))
  | str (v : String)
  | int (v : Int)
  | bool (v : Bool)
  | null

/-- Python truthiness of a configuration value. -/
def cvalTruthy : CVal → Bool
  | .dict es => ¬ es.isEmpty
  | .str v => v ≠ ""
  | .int v => v ≠ 0
  | .bool v => v
  | .null => false

/-- The filesystem outcomes `from_config` depends on: whether `mkdir` of the
configured directory succeeds, whether the `.write_test` touch succeeds, and
whether the `JoinManager` constructor (its `_build_refs` / `_cleanup_sources`
I/O) succeeds. -/
structure FSEnv where
  mkdirOk : Bool
  writeOk : Bool
  ctorOk : Bool
deriving DecidableEq

/-- The manager configuration `from_config` produces on success. -/
structure ManagerCfg where
  maxDays : Int
  maxFiles : Int
deriving DecidableEq

/-- `max_days` / `max_files` coercion (manager.py lines 143-154):
non-ints and negatives fall back to 0 with a warning (`bool` is an `int`
in Python). -/
def coerceLimit : Option CVal → Int
  | some (.int v) => if v < 0 then 0 else v
  | some (.bool v) => if v then 1 else 0
  | some _ => 0
  | none => 0

/-- `joins_config.get(...)`-driven tail of `from_config` (manager.py lines
114-163), once the `joins` value has been extracted: normalize `None` to an
empty dict (a non-dict raises `AttributeError` at the first `.get`),
resolve and probe the source directory (a truthy non-string raises
`TypeError` in `Path()`; caught `OSError`s on `mkdir`/touch yield `None`),
coerce the limits, and construct the manager (`None` when the constructor
raises). -/
def joins_body (fs : FSEnv) (joinsVal : CVal) :
    Except PyErr (Option ManagerCfg) :=
  match (match joinsVal with
    | .null => (.ok [] : Except PyErr (List (String × CVal)))
    | .dict es => .ok es
    | _ => .error (.attributeError "object has no attribute get")) with
  | .error e => .error e
  | .ok joinsConfig =>
    let confSourceDir := ((joinsConfig.find? (fun p => p.1 = "source_dir")).map Prod.snd).getD .null
    match (if cvalTruthy confSourceDir then
        match confSourceDir with
        | .str _ => (.ok fs.mkdirOk : Except PyErr Bool)
        | _ => .error (.typeError "argument should be a str or an os.PathLike object")
      else .ok true) with
    | .error e => .error e
    | .ok dirOk =>
      if ¬ dirOk then .ok none
      else if ¬ fs.writeOk then .ok none
      else
        let maxDays := coerceLimit ((joinsConfig.find? (fun p => p.1 = "max_days")).map Prod.snd)
        let maxFiles := coerceLimit ((joinsConfig.find? (fun p => p.1 = "max_files")).map Prod.snd)
        if fs.ctorOk then .ok (some { maxDays := maxDays, maxFiles := maxFiles })
        else .ok none

/-- `JoinManager.from_config` (manager.py lines 98-163).
`config.get('server', {})['joins']` catches only `KeyError`: subscripting a
non-dict `server` value raises `TypeError`, uncaught; an absent `joins` key
is the disabled sentinel `None`. -/
def from_config (config : List (String × CVal)) (fs : FSEnv) :
    Except PyErr (Option ManagerCfg) :=
  let serverVal := ((config.find? (fun p => p.1 = "server")).map Prod.snd).getD (.dict [])
  match serverVal with
  | .dict serverEntries =>
    match (serverEntries.find? (fun p => p.1 = "joins")).map Prod.snd with
    | none => .ok none
    | some joinsVal => joins_body fs joinsVal
  | _ => .error (.typeError "object is not subscriptable")

/-! ### General lemmas about the helpers -/

lemma dropTrailing_eq_rdropWhile (l : List Char) :
    dropTrailing l = List.rdropWhile isSpace l := rfl

lemma dropWhile_dropTrailing_of_dropWhile_eq {l : List Char}
    (hm : l.dropWhile isSpace = l) :
    (dropTrailing l).dropWhile isSpace = dropTrailing l := by
  obtain ⟨tl, htl⟩ := (List.rdropWhile_prefix (p := isSpace) (l := l))
  rw [← dropTrailing_eq_rdropWhile] at htl
  cases hr : dropTrailing l with
  | nil => rfl
  | cons a as =>
    rw [hr] at htl
    by_cases ha : isSpace a = true
    · exfalso
      have hl : l = a :: (as ++ tl) := by
        rw [← htl]; rfl
      rw [hl, List.dropWhile_cons_of_pos ha] at hm
      have hle := (List.dropWhile_sublist (l := as ++ tl) isSpace).length_le
      rw [hm] at hle
      simp at hle
    · exact List.dropWhile_cons_of_neg ha

lemma stripChars_idem (l : List Char) :
    stripChars (stripChars l) = stripChars l := by
  unfold stripChars
  have hm : (l.dropWhile isSpace).dropWhile isSpace = l.dropWhile isSpace :=
    List.dropWhile_idempotent isSpace l
  rw [dropWhile_dropTrailing_of_dropWhile_eq hm,
    dropTrailing_eq_rdropWhile, dropTrailing_eq_rdropWhile]
  exact List.rdropWhile_idempotent isSpace (l.dropWhile isSpace)

/-- `str.strip()` is idempotent. -/
lemma pystrip_idem (s : String) : pystrip (pystrip s) = pystrip s := by
  unfold pystrip
  simp [stripChars_idem]

/-! ### Invariants of the CSV ingest loop -/

/-- `List.contains` agrees with membership (lawful `BEq`). -/
lemma contains_iff {α : Type} [BEq α] [LawfulBEq α] (l : List α) (a : α) :
    l.contains a = true ↔ a ∈ l :=
  List.elem_iff

/-- Every entry of a successful ingest either came from the accumulator or
is a freshly added `(stripped key, joinFields-aligned row)` pair with a
non-empty key. -/
lemma ingestRows_forall {header : List String} {rk : String}
    {jf : List String} (P : String × List Cell → Prop)
    (hnew : ∀ raw cells, pystrip raw ≠ "" →
      P (pystrip raw, jf.map (cellAt header cells))) :
    ∀ recs acc out, ingestRows header rk jf recs acc = .ok out →
      (∀ pr ∈ acc, P pr) → ∀ pr ∈ out, P pr := by
  intro recs
  induction recs with
  | nil =>
    intro acc out h hacc
    simp only [ingestRows] at h
    cases h
    exact hacc
  | cons cells rest ih =>
    intro acc out h hacc
    simp only [ingestRows] at h
    split at h
    · cases h
    · exact ih acc out h hacc
    · split at h
      · cases h
      next raw heq =>
        split at h
        · cases h
        next hkey =>
          split at h
          · cases h
          · refine ih _ out h ?_
            intro pr hpr
            rcases List.mem_append.mp hpr with hl | hr
            · exact hacc pr hl
            · rcases List.mem_singleton.mp hr with rfl
              exact hnew raw cells hkey

/-- Successful ingest keeps the key list duplicate-free. -/
lemma ingestRows_nodup {header : List String} {rk : String}
    {jf : List String} :
    ∀ recs acc out, ingestRows header rk jf recs acc = .ok out →
      (acc.map Prod.fst).Nodup → (out.map Prod.fst).Nodup := by
  intro recs
  induction recs with
  | nil =>
    intro acc out h hacc
    simp only [ingestRows] at h
    cases h
    exact hacc
  | cons cells rest ih =>
    intro acc out h hacc
    simp only [ingestRows] at h
    split at h
    · cases h
    · exact ih acc out h hacc
    · split at h
      · cases h
      next raw heq =>
        split at h
        · cases h
        · split at h
          · cases h
          next hdup =>
            refine ih _ out h ?_
            rw [List.map_append]
            simp only [List.map_cons, List.map_nil]
            rw [List.nodup_append]
            refine ⟨hacc, List.nodup_singleton _, ?_⟩
            intro a ha hb
            rw [List.mem_singleton] at hb
            subst hb
            exact hdup ((contains_iff _ _).mpr ha)

/-- Membership in the effective join fields implies: not a provider field,
not the right key, and a header column. -/
lemma mem_computeJoinFields {header : List String} {rk : String}
    {uf cf : List String} {f : String}
    (h : f ∈ computeJoinFields header rk uf cf) :
    f ∉ cf ∧ f ∈ header ∧ f ≠ rk := by
  unfold computeJoinFields at h
  split at h
  · rw [List.mem_filter] at h
    rcases h with ⟨-, hc⟩
    simp only [decide_eq_true_eq, contains_iff] at hc
    exact ⟨hc.1, hc.2.1, hc.2.2⟩
  · rw [List.mem_filter] at h
    rcases h with ⟨hmem, hc⟩
    simp only [decide_eq_true_eq, contains_iff] at hc
    exact ⟨hc.1, hmem, hc.2⟩

/-- Inversion of a successful `parsePhase`. -/
lemma parsePhase_ok {lines : List (List String)} {headerRow dataStart : Int}
    {rk : String} {uf cf : List String}
    {jf : List String} {data : List (String × List Cell)}
    (h : parsePhase lines headerRow dataStart rk uf cf = .ok (jf, data)) :
    jf = computeJoinFields (lines.getD (headerRow.toNat - 1) []) rk uf cf ∧
    ingestRows (lines.getD (headerRow.toNat - 1) []) rk jf
      ((((lines.drop headerRow.toNat).filter (fun r => r ≠ [])).drop
        (dataStart - headerRow - 1).toNat)) [] = .ok data := by
  unfold parsePhase at h
  simp only [] at h
  split at h
  · cases h
  · split at h
    · cases h
    · split at h
      · cases h
      · split at h
        · cases h
        · split at h
          · cases h
          next hing =>
            cases h
            exact ⟨rfl, hing⟩

/-- Inversion of a successful `process_csv`: the validated inputs and the
parse output that produced the returned table. -/
lemma process_csv_ok {c : String} {prov : BaseProvider} {form : FormData}
    {fid : String} {now : Nat} {t : JoinTable}
    (hp : process_csv c prov form fid now = .ok t) :
    ∃ leftKey rightKey csvData jf data,
      form.collectionKey = some leftKey ∧
      form.joinKey = some rightKey ∧
      form.joinFile = some csvData ∧
      prov.type = "feature" ∧
      leftKey ∈ prov.keyFields ∧
      parsePhase csvData.lines (form.csvHeaderRow.getD 1)
        (form.csvDataStartRow.getD 2) rightKey
        (userFieldList (form.joinFields.getD "")) prov.fields = .ok (jf, data) ∧
      t = { id := fid, timeStamp := now, collectionId := c,
            collectionKey := leftKey, joinSource := csvData.name,
            joinKey := rightKey, joinFields := jf,
            numberOfRows := data.length, data := data } := by
  unfold process_csv at hp
  simp only [] at hp
  split at hp
  · cases hp
  next hfeat =>
    split at hp
    · cases hp
    · cases hp
    · cases hp
    next lk rk fo hck hjk hjf =>
      split at hp
      · cases hp
      next hkf =>
        split at hp
        · cases hp
        · split at hp
          · cases hp
          · split at hp
            · cases hp
            · split at hp
              · cases hp
              · split at hp
                · cases hp
                next jf0 data0 hparse =>
                  cases hp
                  exact ⟨lk, rk, fo, jf0, data0, hck, hjk, hjf,
                    not_not.mp hfeat,
                    (contains_iff _ _).mp (not_not.mp hkf), hparse, rfl⟩

/-! ### Claim C7: table well-formedness -/

/-- The well-formedness invariant claimed for every table `process_csv`
returns: non-empty, stripped, distinct keys; rows aligned with
`joinFields`; `joinFields` disjoint from the provider schema; `joinKey` not
a join field. -/
def tableWellFormed (prov : BaseProvider) (t : JoinTable) : Prop :=
  (∀ k ∈ t.data.map Prod.fst, k ≠ "" ∧ pystrip k = k) ∧
  (t.data.map Prod.fst).Nodup ∧
  (∀ pr ∈ t.data, pr.2.length = t.joinFields.length) ∧
  (∀ f ∈ t.joinFields, f ∉ prov.fields) ∧
  t.joinKey ∉ t.joinFields

/-- C7 (confirmed): every table returned by a successful `process_csv` has
non-empty, whitespace-stripped, pairwise-distinct data keys; every row has
exactly `len(joinFields)` values; `joinFields` contains no provider schema
field; and `joinKey` is not among `joinFields`. -/
theorem C7_table_well_formed (c : String) (prov : BaseProvider)
    (form : FormData) (fid : String) (now : Nat) (t : JoinTable)
    (hp : process_csv c prov form fid now = .ok t) :
    tableWellFormed prov t := by
  obtain ⟨lk, rk, fo, jf, data, hck, hjk, hjf, hfeat, hkmem, hparse, ht⟩ :=
    process_csv_ok hp
  obtain ⟨hjfeq, hing⟩ := parsePhase_ok hparse
  subst ht
  refine ⟨?_, ?_, ?_, ?_, ?_⟩
  · intro k hk
    rcases List.mem_map.mp hk with ⟨pr, hpr, hprk⟩
    subst hprk
    refine ingestRows_forall
      (fun pr => pr.1 ≠ "" ∧ pystrip pr.1 = pr.1)
      (fun raw cells hraw => ⟨hraw, pystrip_idem raw⟩)
      _ _ _ hing (by simp) pr hpr
  · exact ingestRows_nodup _ _ _ hing (by simp)
  · intro pr hpr
    exact ingestRows_forall
      (fun pr => pr.2.length = jf.length)
      (fun raw cells _ => by simp)
      _ _ _ hing (by simp) pr hpr
  · intro f hf
    rw [hjfeq] at hf
    exact (mem_computeJoinFields hf).1
  · intro hrk
    rw [hjfeq] at hrk
    exact (mem_computeJoinFields hrk).2.2 rfl

/-- The spec's happy-path upload:
`id,city,population,area` with three data rows. -/
def happyCSV : FileObject :=
  { name := "test.csv", contentType := "text/csv",
    lines := [["id", "city", "population", "area"],
              ["1", "City A", "100000", "50.5"],
              ["2", "City B", "200000", "75.3"],
              ["3", "City C", "150000", "60.2"]] }

/-- The test suite's mock feature provider: schema `id, geometry, name`,
key fields `id, name`. -/
def happyProvider : BaseProvider :=
  { type := "feature", keyFields := ["id", "name"],
    fields := ["id", "geometry", "name"] }

/-- The happy-path form options (`collectionKey=id`, `joinKey=id`, rest
defaulted). -/
def happyForm : FormData :=
  { collectionKey := some "id", joinKey := some "id",
    joinFile := some happyCSV, joinFields := none, csvDelimiter := none,
    csvHeaderRow := none, csvDataStartRow := none }

/-- A concrete fresh UUID for the happy path. -/
def happyId : String := "13b40adb-aef3-4f6b-8d32-acf3ab082d2d"

/-- The table the happy-path ingest materializes. -/
def happyTable : JoinTable :=
  { id := happyId, timeStamp := 5, collectionId := "cities",
    collectionKey := "id", joinSource := "test.csv", joinKey := "id",
    joinFields := ["city", "population", "area"], numberOfRows := 3,
    data := [("1", [some "City A", some "100000", some "50.5"]),
             ("2", [some "City B", some "200000", some "75.3"]),
             ("3", [some "City C", some "150000", some "60.2"])] }

/-- Witness for C7: the happy-path ingest succeeds and its table satisfies
the well-formedness invariant. -/
theorem C7_witness :
    process_csv "cities" happyProvider happyForm happyId 5 = .ok happyTable ∧
    tableWellFormed happyProvider happyTable :=
  ⟨by decide,
   C7_table_well_formed "cities" happyProvider happyForm happyId 5 happyTable
     (by decide)⟩

/-! ### Claim C1: retention by count -/

/-- Source A, the oldest (created first). -/
def tblA : JoinTable :=
  { id := "aaaaaaaa-1111-4111-8111-111111111111", timeStamp := 1,
    collectionId := "cities", collectionKey := "id", joinSource := "a.csv",
    joinKey := "id", joinFields := ["city"], numberOfRows := 1,
    data := [("1", [some "A"])] }

/-- Source B, created second. -/
def tblB : JoinTable :=
  { tblA with
    id := "bbbbbbbb-2222-4222-8222-222222222222"
    timeStamp := 2
    joinSource := "b.csv" }

/-- Source C, the newest (created last). -/
def tblC : JoinTable :=
  { tblA with
    id := "cccccccc-3333-4333-8333-333333333333"
    timeStamp := 3
    joinSource := "c.csv" }

/-- An index document for a stored table. -/
def docOf (t : JoinTable) : SourceDoc :=
  { id := t.id, collectionId := t.collectionId, timeStamp := t.timeStamp,
    joinSource := t.joinSource, ref := make_source_path t.id }

/-- A store holding the three sources A, B, C of one collection, in
creation order. -/
def retentionStore : Store :=
  { docs := [docOf tblA, docOf tblB, docOf tblC],
    files := [(make_source_path tblA.id, tblA),
              (make_source_path tblB.id, tblB),
              (make_source_path tblC.id, tblC)] }

/-- C1 (code bug): a cleanup pass with `maxFiles = 2` over the three sources
A older than B older than C deletes the two NEWEST sources B and C — only A
survives, with only A's index entry — whereas the claim (and the spec, and
the method's own "removes stale join source files" contract) keeps the
newest two, B and C.  The code slices
`list(reversed(source_items))[:max_files]` for deletion; retention needs
`[max_files:]`. -/
theorem C1_cleanup_keeps_oldest :
    ((cleanup_sources 0 2 10 retentionStore).files.map Prod.fst
        = [make_source_path tblA.id]) ∧
    ((cleanup_sources 0 2 10 retentionStore).docs.map SourceDoc.id
        = [tblA.id]) ∧
    (cleanup_sources 0 2 10 retentionStore).files.map Prod.fst
        ≠ [make_source_path tblB.id, make_source_path tblC.id] := by
  refine ⟨by decide, by decide, by decide⟩

/-! ### Claim C3: ingest atomicity -/

/-- C3 (confirmed): whenever `process_csv` raises — in particular for every
of its validation and parse errors (missing option, invalid option, wrong
content type, unknown join key, CSV shape error, empty key, duplicate key) —
the store is left exactly as it was: no source file is written, no index
document is inserted, and `list_sources` answers as before the call.  (In
the code every raise happens before the first write; the lazy cleanup and
the file/index writes only run after a fully successful parse.) -/
theorem C3_ingest_atomicity (st : Store) (maxDays maxFiles : Nat)
    (c : String) (prov : BaseProvider) (form : FormData) (fid : String)
    (now : Nat) (e : PyErr)
    (hp : process_csv c prov form fid now = .error e) :
    process_csv_step st maxDays maxFiles c prov form fid now = (.error e, st) ∧
    (list_sources (process_csv_step st maxDays maxFiles c prov form fid now).2 c).1
      = (list_sources st c).1 := by
  have h1 : process_csv_step st maxDays maxFiles c prov form fid now
      = (.error e, st) := by
    unfold process_csv_step
    rw [hp]
  exact ⟨h1, by rw [h1]⟩

/-- The spec's duplicate-right-side-key upload: `id,city` with two rows both
keyed `1`. -/
def dupCSV : FileObject :=
  { name := "dup.csv", contentType := "text/csv",
    lines := [["id", "city"], ["1", "A"], ["1", "B"]] }

/-- Form data for the duplicate-key upload. -/
def dupForm : FormData :=
  { collectionKey := some "id", joinKey := some "id",
    joinFile := some dupCSV, joinFields := none, csvDelimiter := none,
    csvHeaderRow := none, csvDataStartRow := none }

/-- The duplicate-key error `process_csv` raises for `dupCSV`. -/
def dupErr : PyErr :=
  .valueError "failed to process CSV: found duplicate key (1)"

/-- Witness for C3: the duplicate-key upload aborts with the duplicate-key
error and leaves a three-source store untouched, `list_sources` included. -/
theorem C3_witness :
    process_csv "cities" happyProvider dupForm happyId 5 = .error dupErr ∧
    process_csv_step retentionStore 0 0 "cities" happyProvider dupForm happyId 5
      = (.error dupErr, retentionStore) ∧
    (list_sources (process_csv_step retentionStore 0 0 "cities" happyProvider
        dupForm happyId 5).2 "cities").1
      = (list_sources retentionStore "cities").1 := by
  have h := C3_ingest_atomicity retentionStore 0 0 "cities" happyProvider
    dupForm happyId 5 dupErr (by decide)
  exact ⟨by decide, h.1, h.2⟩

/-! ### Claim C4: remove semantics -/

/-- After `removeDoc`, no document matches `(collectionId, id)` any more. -/
lemma find?_removeDoc (docs : List SourceDoc) (c i : String) :
    (removeDoc docs c i).find?
      (fun d => d.id = i ∧ d.collectionId = c) = none := by
  rw [List.find?_eq_none]
  intro d hd
  rw [removeDoc, List.mem_filter] at hd
  have h2 := hd.2
  simp only [decide_eq_true_eq] at h2 ⊢
  exact h2

/-- Every entry `list_sources` returns belongs to the collection and to the
store's documents. -/
lemma mem_list_sources {st : Store} {c : String} {d : SourceDoc}
    (h : d ∈ (list_sources st c).1) : d ∈ st.docs ∧ d.collectionId = c := by
  unfold list_sources at h
  simp only [List.mem_filter] at h
  refine ⟨h.1.1, ?_⟩
  have := h.1.2
  simpa using this

/-- `find_source_path` when the index has no matching document. -/
lemma find_source_path_none {st : Store} {c joinId : String}
    (h : st.docs.find? (fun d => d.id = joinId ∧ d.collectionId = c) = none) :
    find_source_path st c joinId
      = (.error (.notFoundError "join source not found"), st) := by
  unfold find_source_path
  rw [h]

/-- `find_source_path` when the document exists but its file is gone:
the orphan is reaped and `JoinSourceMissingError` raised. -/
lemma find_source_path_orphan {st : Store} {c joinId : String}
    {doc : SourceDoc}
    (h : st.docs.find? (fun d => d.id = joinId ∧ d.collectionId = c) = some doc)
    (hfile : st.files.any (fun p => p.1 = doc.ref) = false) :
    find_source_path st c joinId
      = (.error (.missingError "join source was removed"),
         { st with docs := removeDoc st.docs c joinId }) := by
  unfold find_source_path
  rw [h]
  simp only [hfile]
  rfl

/-- `find_source_path` when the document exists and its file is present. -/
lemma find_source_path_found {st : Store} {c joinId : String}
    {doc : SourceDoc}
    (h : st.docs.find? (fun d => d.id = joinId ∧ d.collectionId = c) = some doc)
    (hfile : st.files.any (fun p => p.1 = doc.ref) = true) :
    find_source_path st c joinId = (.ok doc.ref, st) := by
  unfold find_source_path
  rw [h]
  simp only [hfile]
  rfl

/-- `read_join_source` raises `JoinSourceNotFoundError` when the index has
no matching document (and the id is valid). -/
lemma read_join_source_not_found {st : Store} {c joinId : String}
    (hv : valid_id joinId = true)
    (h : st.docs.find? (fun d => d.id = joinId ∧ d.collectionId = c) = none) :
    (read_join_source st c joinId).1
      = .error (.notFoundError "join source not found") := by
  unfold read_join_source
  rw [if_neg (by simp [hv]), find_source_path_none h]

/-- The claimed contract of `remove_source` for a valid id: `False` with an
unchanged store exactly when no index entry exists; `True` whenever one
does; and after `True`, listing omits the id and reading raises
`JoinSourceNotFoundError`. -/
def removeContract (st : Store) (c joinId : String) : Prop :=
  (remove_source st c joinId = (.ok false, st) ↔
    ¬ ∃ d ∈ st.docs, d.id = joinId ∧ d.collectionId = c) ∧
  ((∃ d ∈ st.docs, d.id = joinId ∧ d.collectionId = c) →
    (remove_source st c joinId).1 = .ok true) ∧
  (∀ b st1, remove_source st c joinId = (.ok b, st1) → b = true →
    (∀ d ∈ (list_sources st1 c).1, d.id ≠ joinId) ∧
    (read_join_source st1 c joinId).1
      = .error (.notFoundError "join source not found"))

/-- C4 (confirmed): for a valid UUID `joinId`, `remove_source` answers
`False` (leaving the store untouched) exactly when the index has no entry
for `(collectionId, joinId)`; it answers `True` whenever an entry exists —
both when the file is deleted and when the entry was an orphan — and after
any `True` answer `list_sources` no longer contains the id and
`read_join_source` raises `JoinSourceNotFoundError`. -/
theorem C4_remove_semantics (st : Store) (c joinId : String)
    (hv : valid_id joinId = true) :
    removeContract st c joinId := by
  unfold removeContract
  have hafter : ∀ docs0 files0,
      (∀ d ∈ (list_sources ⟨removeDoc docs0 c joinId, files0⟩ c).1,
        d.id ≠ joinId) ∧
      (read_join_source ⟨removeDoc docs0 c joinId, files0⟩ c joinId).1
        = .error (.notFoundError "join source not found") := by
    intro docs0 files0
    constructor
    · intro d hd heq
      obtain ⟨hmem, hcol⟩ := mem_list_sources hd
      rw [removeDoc, List.mem_filter] at hmem
      have h2 := hmem.2
      simp only [decide_eq_true_eq] at h2
      exact h2 ⟨heq, hcol⟩
    · exact read_join_source_not_found hv (find?_removeDoc docs0 c joinId)
  cases hf : st.docs.find? (fun d => d.id = joinId ∧ d.collectionId = c) with
  | none =>
    have hrs : remove_source st c joinId = (.ok false, st) := by
      unfold remove_source
      rw [if_neg (by simp [hv]), find_source_path_none hf]
    refine ⟨?_, ?_, ?_⟩
    · rw [hrs]
      constructor
      · intro _ hex
        rcases hex with ⟨d, hd, hdp⟩
        have := List.find?_eq_none.mp hf d hd
        simp only [decide_eq_true_eq] at this
        exact this hdp
      · intro _
        rfl
    · intro hex
      exfalso
      rcases hex with ⟨d, hd, hdp⟩
      have := List.find?_eq_none.mp hf d hd
      simp only [decide_eq_true_eq] at this
      exact this hdp
    · intro b st1 heq hb
      rw [hrs] at heq
      cases heq
      cases hb
  | some doc =>
    have hex : ∃ d ∈ st.docs, d.id = joinId ∧ d.collectionId = c := by
      refine ⟨doc, List.mem_of_find?_eq_some hf, ?_⟩
      have := List.find?_some hf
      simpa using this
    cases hfile : st.files.any (fun p => p.1 = doc.ref) with
    | false =>
      have hrs : remove_source st c joinId
          = (.ok true, { st with docs := removeDoc st.docs c joinId }) := by
        unfold remove_source
        rw [if_neg (by simp [hv]), find_source_path_orphan hf hfile]
      refine ⟨?_, fun _ => by rw [hrs], ?_⟩
      · rw [hrs]
        constructor
        · intro heq
          exact absurd (congrArg (fun p => p.1) heq) (by simp)
        · intro hne
          exact absurd hex hne
      · intro b st1 heq hb
        rw [hrs] at heq
        cases heq
        exact hafter st.docs st.files
    | true =>
      have hrs : remove_source st c joinId
          = (.ok true, { docs := removeDoc st.docs c joinId,
                         files := deleteFile st.files doc.ref }) := by
        unfold remove_source
        rw [if_neg (by simp [hv]), find_source_path_found hf hfile]
      refine ⟨?_, fun _ => by rw [hrs], ?_⟩
      · rw [hrs]
        constructor
        · intro heq
          exact absurd (congrArg (fun p => p.1) heq) (by simp)
        · intro hne
          exact absurd hex hne
      · intro b st1 heq hb
        rw [hrs] at heq
        cases heq
        exact hafter st.docs (deleteFile st.files doc.ref)

/-- An orphaned store: B's index entry is present but its file is gone. -/
def orphanStore : Store :=
  { docs := [docOf tblA, docOf tblB, docOf tblC],
    files := [(make_source_path tblA.id, tblA),
              (make_source_path tblC.id, tblC)] }

/-- Witness for C4: a valid id against the three-source store (entry
present, file present) and against the orphaned store (entry present, file
gone) both satisfy the remove contract. -/
theorem C4_witness :
    valid_id tblB.id = true ∧
    removeContract retentionStore "cities" tblB.id ∧
    removeContract orphanStore "cities" tblB.id :=
  ⟨by decide,
   C4_remove_semantics retentionStore "cities" tblB.id (by decide),
   C4_remove_semantics orphanStore "cities" tblB.id (by decide)⟩

/-! ### Lemmas about property-bag updates -/

/-- Left fold of dict assignments `ps[f] = hf f` over a field list; the
shape `perform_join`'s `zip(join_fields, join_row)` loop takes when the row
is aligned with the fields. -/
def applyFields (fields : List String) (hf : String → PVal)
    (ps : List (String × PVal)) : List (String × PVal) :=
  fields.foldl (fun acc f => setProp f (hf f) acc) ps

lemma find?_setProp (f : String) (v : PVal) (ps : List (String × PVal))
    (f' : String) :
    (setProp f v ps).find? (fun p => p.1 = f')
      = if f' = f then some (f, v) else ps.find? (fun p => p.1 = f') := by
  induction ps with
  | nil =>
    by_cases h : f' = f
    · subst h
      simp [setProp]
    · simp [setProp, h, Ne.symm h]
  | cons q t ih =>
    by_cases hq : q.1 = f
    · rw [show setProp f v (q :: t) = (f, v) :: t by rw [setProp, if_pos hq]]
      by_cases h : f' = f
      · subst h
        rw [List.find?_cons_of_pos _ (by simp), if_pos rfl]
      · rw [List.find?_cons_of_neg _ (by simp [Ne.symm h]), if_neg h,
          List.find?_cons_of_neg _ (by simp [hq, Ne.symm h])]
    · rw [show setProp f v (q :: t) = q :: setProp f v t by
        rw [setProp, if_neg hq]]
      by_cases hqf : q.1 = f'
      · have hff : f' ≠ f := fun hc => hq (by rw [hqf, hc])
        rw [List.find?_cons_of_pos _ (by simp [hqf]), if_neg hff,
          List.find?_cons_of_pos _ (by simp [hqf])]
      · rw [List.find?_cons_of_neg _ (by simp [hqf]), ih]
        by_cases h : f' = f
        · rw [if_pos h, if_pos h]
        · rw [if_neg h, if_neg h,
            List.find?_cons_of_neg _ (by simp [hqf])]

lemma lookup_setProp_self (f : String) (v : PVal)
    (ps : List (String × PVal)) :
    lookupProp (setProp f v ps) f = some v := by
  unfold lookupProp
  rw [find?_setProp, if_pos rfl]
  rfl

lemma lookup_setProp_other {f f' : String} (h : f' ≠ f) (v : PVal)
    (ps : List (String × PVal)) :
    lookupProp (setProp f v ps) f' = lookupProp ps f' := by
  unfold lookupProp
  rw [find?_setProp, if_neg h]

/-- Re-assigning the value the first matching entry already holds is a
no-op. -/
lemma setProp_noop {f : String} {v : PVal} {ps : List (String × PVal)}
    (h : ps.find? (fun p => p.1 = f) = some (f, v)) :
    setProp f v ps = ps := by
  induction ps with
  | nil => simp [List.find?] at h
  | cons q t ih =>
    unfold setProp
    by_cases hq : q.1 = f
    · rw [if_pos hq]
      simp only [List.find?] at h
      rw [decide_eq_true hq] at h
      cases h
      rfl
    · rw [if_neg hq]
      simp only [List.find?] at h
      have hd : (decide (q.1 = f) : Bool) = false := by
        simpa using hq
      rw [hd] at h
      rw [ih h]

lemma find?_applyFields (fields : List String) (hf : String → PVal)
    (ps : List (String × PVal)) (f' : String) :
    (applyFields fields hf ps).find? (fun p => p.1 = f')
      = if f' ∈ fields then some (f', hf f')
        else ps.find? (fun p => p.1 = f') := by
  induction fields generalizing ps with
  | nil => simp [applyFields]
  | cons f rest ih =>
    show (applyFields rest hf (setProp f (hf f) ps)).find? _ = _
    rw [ih]
    by_cases hr : f' ∈ rest
    · rw [if_pos hr, if_pos (List.mem_cons_of_mem f hr)]
    · rw [if_neg hr, find?_setProp]
      by_cases hfq : f' = f
      · rw [if_pos hfq, if_pos (hfq ▸ List.mem_cons_self f' rest)]
        rw [hfq]
      · rw [if_neg hfq, if_neg (by
          intro hc
          rcases List.mem_cons.mp hc with h1 | h2
          · exact hfq h1
          · exact hr h2)]

lemma lookup_applyFields_mem {fields : List String} {f : String}
    (h : f ∈ fields) (hf : String → PVal) (ps : List (String × PVal)) :
    lookupProp (applyFields fields hf ps) f = some (hf f) := by
  unfold lookupProp
  rw [find?_applyFields, if_pos h]
  rfl

lemma lookup_applyFields_not_mem {fields : List String} {f : String}
    (h : f ∉ fields) (hf : String → PVal) (ps : List (String × PVal)) :
    lookupProp (applyFields fields hf ps) f = lookupProp ps f := by
  unfold lookupProp
  rw [find?_applyFields, if_neg h]

/-- Applying the same field assignments twice is the same as once. -/
lemma applyFields_idem (fields : List String) (hf : String → PVal)
    (ps : List (String × PVal)) :
    applyFields fields hf (applyFields fields hf ps)
      = applyFields fields hf ps := by
  have noop : ∀ gs L, (∀ f ∈ gs, L.find? (fun p => p.1 = f) = some (f, hf f)) →
      applyFields gs hf L = L := by
    intro gs
    induction gs with
    | nil => intro L _; rfl
    | cons f rest ih =>
      intro L hL
      show applyFields rest hf (setProp f (hf f) L) = L
      rw [setProp_noop (hL f (List.mem_cons_self f rest))]
      exact ih L (fun f' hf' => hL f' (List.mem_cons_of_mem f hf'))
  refine noop fields (applyFields fields hf ps) ?_
  intro f hfmem
  rw [find?_applyFields, if_pos hfmem]

/-- The `zip`-driven assignment loop over a row aligned with the fields is
exactly `applyFields`. -/
lemma zip_map_foldl (l : List String) (g : String → Cell)
    (ps : List (String × PVal)) :
    ((l.zip (l.map g)).foldl
      (fun acc fv => setProp fv.1 (cellVal fv.2) acc) ps)
      = applyFields l (fun f => cellVal (g f)) ps := by
  induction l generalizing ps with
  | nil => rfl
  | cons f rest ih =>
    simp only [List.map_cons, List.zip_cons_cons, List.foldl_cons]
    exact ih (setProp f (cellVal (g f)) ps)

/-- A pair drawn from `zip l (map g l)` is `(f, g f)` for some `f ∈ l`. -/
lemma mem_zip_map {l : List String} {g : String → Cell}
    {fv : String × Cell} (h : fv ∈ l.zip (l.map g)) :
    fv.1 ∈ l ∧ fv.2 = g fv.1 := by
  induction l with
  | nil => simp at h
  | cons f rest ih =>
    simp only [List.map_cons, List.zip_cons_cons, List.mem_cons] at h
    rcases h with h | h
    · subst h
      exact ⟨List.mem_cons_self f rest, rfl⟩
    · rcases ih h with ⟨h1, h2⟩
      exact ⟨List.mem_cons_of_mem f h1, h2⟩

/-! ### Claim C2: the PerformJoin postcondition -/

/-- Every data row of a `process_csv` table is positionally generated from
the table's join fields: `row = joinFields.map g` for the row's cell
function `g`. -/
lemma process_csv_row_shape {c : String} {prov : BaseProvider}
    {form : FormData} {fid : String} {now : Nat} {t : JoinTable}
    (hp : process_csv c prov form fid now = .ok t) :
    ∀ pr ∈ t.data, ∃ g : String → Cell, pr.2 = t.joinFields.map g := by
  obtain ⟨lk, rk, fo, jf, data, hck, hjk, hjf, hfeat, hkmem, hparse, ht⟩ :=
    process_csv_ok hp
  obtain ⟨hjfeq, hing⟩ := parsePhase_ok hparse
  subst ht
  intro pr hpr
  exact ingestRows_forall
    (fun pr => ∃ g : String → Cell, pr.2 = jf.map g)
    (fun raw cells _ => ⟨cellAt _ cells, rfl⟩)
    _ _ _ hing (by simp) pr hpr

/-- A successful `List.lookup` pins a member of the association list. -/
lemma mem_of_lookup {α β : Type} [BEq α] [LawfulBEq α]
    {l : List (α × β)} {k : α} {b : β} (h : l.lookup k = some b) :
    (k, b) ∈ l := by
  rcases List.lookup_eq_some_iff.mp h with ⟨l1, l2, rfl, -⟩
  exact List.mem_append.mpr (Or.inr (List.mem_cons_self _ _))

/-- The corrected per-feature postcondition of `perform_join`: `joined` is
true iff the looked-up key hits a NON-EMPTY row (not merely any row), and
each `(field, value)` pair of `zip(joinFields, row)` is present on the
enriched properties. -/
def featPost (t : JoinTable) (ps : List (String × PVal)) (ft1 : Feat) : Prop :=
  (ft1.joined = some true ↔
    ∃ row, t.data.lookup (featKey t ps) = some row ∧ row ≠ []) ∧
  (∀ fv ∈ t.joinFields.zip (featRow t ps),
    lookupProp (ft1.props.getD []) fv.1 = some (cellVal fv.2))

/-- `joinFeat` on a feature with a property bag satisfies the corrected
postcondition, for tables produced by `process_csv`. -/
lemma joinFeat_post {c : String} {prov : BaseProvider} {form : FormData}
    {fid : String} {now : Nat} {t : JoinTable}
    (hp : process_csv c prov form fid now = .ok t)
    (ft : Feat) (ps : List (String × PVal)) (ft1 : Feat)
    (hps : ft.props = some ps) (hj : joinFeat t ft = .ok ft1) :
    featPost t ps ft1 := by
  unfold joinFeat at hj
  rw [hps] at hj
  cases hj
  constructor
  · simp only [joinProps]
    constructor
    · intro hb
      have : featRow t ps ≠ [] := by
        have := Option.some.inj hb
        simpa using of_decide_eq_true (by simpa using this)
      cases hrow : t.data.lookup (featKey t ps) with
      | none =>
        exfalso
        apply this
        unfold featRow
        rw [hrow]
        rfl
      | some row =>
        refine ⟨row, rfl, ?_⟩
        intro hempty
        apply this
        unfold featRow
        rw [hrow, hempty]
        rfl
    · rintro ⟨row, hrow, hne⟩
      have : featRow t ps = row := by
        unfold featRow
        rw [hrow]
        rfl
      simp only [this]
      simpa using hne
  · intro fv hfv
    simp only [joinProps]
    cases hrow : t.data.lookup (featKey t ps) with
    | none =>
      exfalso
      have : featRow t ps = [] := by
        unfold featRow
        rw [hrow]
        rfl
      rw [this] at hfv
      simp at hfv
    | some row =>
      have hfr : featRow t ps = row := by
        unfold featRow
        rw [hrow]
        rfl
      obtain ⟨g, hg⟩ := process_csv_row_shape hp _ (mem_of_lookup hrow)
      have hg2 : row = t.joinFields.map g := hg
      rw [hfr] at hfv ⊢
      rw [hg2] at hfv ⊢
      rw [zip_map_foldl]
      obtain ⟨h1, h2⟩ := mem_zip_map hfv
      rw [h2]
      simpa using lookup_applyFields_mem h1 (fun f => cellVal (g f)) ps

/-- `joinFeats` counts exactly the features whose `joined` flag it set to
true. -/
lemma joinFeats_count {t : JoinTable} :
    ∀ fts fts1 n, joinFeats t fts = .ok (fts1, n) →
      n = fts1.countP (fun x => x.joined = some true) := by
  intro fts
  induction fts with
  | nil =>
    intro fts1 n h
    cases h
    rfl
  | cons ft rest ih =>
    intro fts1 n h
    unfold joinFeats at h
    split at h
    · cases h
    next ft1 hft1 =>
      split at h
      · cases h
      next rest1 m hrest =>
        cases h
        rw [List.countP_cons, ih rest1 m (by rw [hrest])]
        by_cases hb : ft1.joined = some true
        · rw [if_pos hb, if_pos (by simpa using hb)]
          omega
        · rw [if_neg hb, if_neg (by simpa using hb)]
          omega

/-- C2 (corrected): for a `process_csv` table, after `perform_join` each
processed feature's `joined` flag is true iff the stringified key hits a
non-empty row of `t.data` (the `iff key ∈ t.data` of the claim fails when
the matched row is empty), and when it does, every `(field, value)` of
`zip(t.joinFields, row)` is set on the properties; in collection mode
`numberJoined` is the count of features with a non-empty matched row. -/
theorem C2_perform_join_post (c : String) (prov : BaseProvider)
    (form : FormData) (fid : String) (now : Nat) (t : JoinTable)
    (hp : process_csv c prov form fid now = .ok t) :
    (∀ ft ps ft1, ft.props = some ps → joinFeat t ft = .ok ft1 →
      featPost t ps ft1) ∧
    (∀ d d1 fts1, perform_join t d = .ok d1 →
      d1.features = some fts1 → d.type = some "FeatureCollection" →
      d.features.isSome →
      d1.numberJoined = some (fts1.countP (fun x => x.joined = some true))) := by
  constructor
  · intro ft ps ft1 hps hj
    exact joinFeat_post hp ft ps ft1 hps hj
  · intro d d1 fts1 hpj hf1 hty hfs
    unfold perform_join at hpj
    split at hpj
    · cases hpj
    next ty0 hty0 =>
      have hty1 : ty0 = "FeatureCollection" := by
        rw [hty] at hty0
        exact (Option.some.inj hty0).symm
      subst hty1
      split at hpj
      next fts hfts hdec =>
        split at hpj
        · cases hpj
        next fts1' n' hjf =>
          cases hpj
          have hfe : fts1' = fts1 := by
            simpa using hf1
          show some n' = _
          rw [joinFeats_count fts fts1' n' (by rw [hjf]), hfe]
      next hmiss =>
        exfalso
        cases hfs0 : d.features with
        | none =>
          rw [hfs0] at hfs
          simp at hfs
        | some fts =>
          exact hmiss fts hfs0 (by simp)

/-- A CSV whose only non-key column (`name`) collides with the provider
schema: the resulting table has `joinFields = []` and an EMPTY row for key
`"1"`. -/
def confCSV : FileObject :=
  { name := "conf.csv", contentType := "text/csv",
    lines := [["id", "name"], ["1", "A"]] }

/-- Form data for the colliding-column upload. -/
def confForm : FormData :=
  { collectionKey := some "id", joinKey := some "id",
    joinFile := some confCSV, joinFields := none, csvDelimiter := none,
    csvHeaderRow := none, csvDataStartRow := none }

/-- Fresh id for the colliding-column upload. -/
def confId : String := "3f6e2b0a-9c1d-4e57-8a2b-0f1e2d3c4b5a"

/-- The table the colliding-column upload materializes: key `"1"` is in the
data, bound to the empty row. -/
def confTable : JoinTable :=
  { id := confId, timeStamp := 5, collectionId := "cities",
    collectionKey := "id", joinSource := "conf.csv", joinKey := "id",
    joinFields := [], numberOfRows := 1, data := [("1", [])] }

/-- A single feature whose key property `"1"` matches `confTable`'s data. -/
def confDoc : GeoDoc :=
  { type := some "Feature", features := none,
    feat := { props := some [("id", PVal.s "1"), ("name", PVal.s "F")],
              joined := none },
    numberJoined := none }

/-- What `perform_join` actually produces on `confDoc`: `joined = False`. -/
def confDocAfter : GeoDoc :=
  { confDoc with
    feat := { props := confDoc.feat.props, joined := some false } }

/-- C2 counterexample: the colliding-column table is produced by
`process_csv`, its data CONTAINS the feature's stringified key `"1"`
(`lookup` succeeds), yet `perform_join` sets `joined = False`, because the
matched row is empty and the code tests the row's truthiness — refuting
`joined = true iff stringify(key) ∈ t.data` as claimed. -/
theorem C2_counterexample :
    process_csv "cities" happyProvider confForm confId 5 = .ok confTable ∧
    confTable.data.lookup
      (featKey confTable [("id", PVal.s "1"), ("name", PVal.s "F")])
      = some [] ∧
    perform_join confTable confDoc = .ok confDocAfter ∧
    confDocAfter.feat.joined = some false :=
  ⟨by decide, by decide, by decide, by decide⟩

/-- Witness for the amended C2 at the happy-path table. -/
theorem C2_witness :
    process_csv "cities" happyProvider happyForm happyId 5 = .ok happyTable ∧
    ((∀ ft ps ft1, ft.props = some ps → joinFeat happyTable ft = .ok ft1 →
      featPost happyTable ps ft1) ∧
     (∀ d d1 fts1, perform_join happyTable d = .ok d1 →
      d1.features = some fts1 → d.type = some "FeatureCollection" →
      d.features.isSome →
      d1.numberJoined
        = some (fts1.countP (fun x => x.joined = some true)))) :=
  ⟨by decide,
   C2_perform_join_post "cities" happyProvider happyForm happyId 5 happyTable
     (by decide)⟩

/-! ### Claim C6: PerformJoin input totality -/

/-- A dict with no `type` member at all. -/
def noTypeDoc : GeoDoc :=
  { type := none, features := none,
    feat := { props := some [], joined := none }, numberJoined := none }

/-- A single feature with no `properties` member. -/
def noPropsDoc : GeoDoc :=
  { type := some "Feature", features := none,
    feat := { props := none, joined := none }, numberJoined := none }

/-- C6 counterexample: a dict with no `type` member makes `perform_join`
raise `KeyError('type')` (`features['type']`, manager.py line 604) instead
of being treated as a single feature, and a feature with no `properties`
member raises `KeyError('properties')` (line 616) instead of being treated
as an empty map — refuting the claimed totality on both counts. -/
theorem C6_counterexample :
    perform_join happyTable noTypeDoc = .error (.keyError "type") ∧
    perform_join happyTable noPropsDoc = .error (.keyError "properties") :=
  ⟨by decide, by decide⟩

/-- C6 (corrected): provided the input dict DOES carry a `type` member, any
shape other than a typed FeatureCollection with a `features` member is
treated as a single feature; the join then succeeds on a feature carrying a
`properties` member and raises `KeyError('properties')` on one without. -/
theorem C6_single_feature_mode (t : JoinTable) (d : GeoDoc) (ty : String)
    (hty : d.type = some ty)
    (hsingle : d.features = none ∨ ty ≠ "FeatureCollection") :
    (∀ ps, d.feat.props = some ps →
      perform_join t d = .ok { d with feat :=
        { props := some (joinProps t ps).1,
          joined := some (joinProps t ps).2 } }) ∧
    (d.feat.props = none →
      perform_join t d = .error (.keyError "properties")) := by
  have hred : perform_join t d
      = match joinFeat t d.feat with
        | .error e => .error e
        | .ok ft1 => .ok { d with feat := ft1 } := by
    unfold perform_join
    rw [hty]
    simp only []
    rcases hsingle with hfn | hne
    · rw [hfn]
    · have hdec : decide (ty = "FeatureCollection") = false := by
        simp [hne]
      rw [hdec]
      cases d.features <;> rfl
  constructor
  · intro ps hps
    rw [hred]
    unfold joinFeat
    rw [hps]
  · intro hps
    rw [hred]
    unfold joinFeat
    rw [hps]

/-- Witness for the corrected C6: a `type`-carrying single feature joins
without an exception, and the same dict without `properties` raises
`KeyError('properties')`. -/
theorem C6_witness :
    confDoc.type = some "Feature" ∧
    (confDoc.features = none ∨ "Feature" ≠ "FeatureCollection") ∧
    noPropsDoc.type = some "Feature" ∧
    (noPropsDoc.features = none ∨ "Feature" ≠ "FeatureCollection") ∧
    perform_join confTable confDoc
      = .ok { confDoc with feat :=
          { props := some (joinProps confTable
              [("id", PVal.s "1"), ("name", PVal.s "F")]).1,
            joined := some (joinProps confTable
              [("id", PVal.s "1"), ("name", PVal.s "F")]).2 } } ∧
    perform_join confTable noPropsDoc = .error (.keyError "properties") :=
  ⟨by decide, Or.inl (by decide), by decide, Or.inl (by decide),
   (C6_single_feature_mode confTable confDoc "Feature" (by decide)
      (Or.inl (by decide))).1 _ (by decide),
   (C6_single_feature_mode confTable noPropsDoc "Feature" (by decide)
      (Or.inl (by decide))).2 (by decide)⟩

/-! ### Claim C8: PerformJoin idempotence -/

/-- One enrichment step is idempotent on a property bag, provided the
table's `collectionKey` is not among its `joinFields` (the first pass then
cannot disturb the key lookup) and the table's rows are aligned with the
join fields (as `process_csv` guarantees). -/
lemma joinProps_idem (t : JoinTable)
    (hck : t.collectionKey ∉ t.joinFields)
    (hshape : ∀ pr ∈ t.data, ∃ g : String → Cell, pr.2 = t.joinFields.map g)
    (ps : List (String × PVal)) :
    joinProps t (joinProps t ps).1 = joinProps t ps := by
  cases hrow : t.data.lookup (featKey t ps) with
  | none =>
    have hfr : featRow t ps = [] := by
      unfold featRow
      rw [hrow]
      rfl
    have hps1 : (joinProps t ps).1 = ps := by
      simp only [joinProps]
      rw [hfr]
      simp
    rw [hps1]
  | some row =>
    obtain ⟨g, hg⟩ := hshape _ (mem_of_lookup hrow)
    have hg2 : row = t.joinFields.map g := hg
    have hfr : featRow t ps = row := by
      unfold featRow
      rw [hrow]
      rfl
    have hps1 : (joinProps t ps).1
        = applyFields t.joinFields (fun f => cellVal (g f)) ps := by
      simp only [joinProps]
      rw [hfr, hg2, zip_map_foldl]
    have hkey : featKey t (joinProps t ps).1 = featKey t ps := by
      unfold featKey
      rw [hps1, lookup_applyFields_not_mem hck]
    have hfr1 : featRow t (joinProps t ps).1 = row := by
      unfold featRow
      rw [hkey, hrow]
      rfl
    have e1 : joinProps t (joinProps t ps).1
        = ((t.joinFields.zip (featRow t (joinProps t ps).1)).foldl
            (fun acc fv => setProp fv.1 (cellVal fv.2) acc) (joinProps t ps).1,
           decide (featRow t (joinProps t ps).1 ≠ [])) := rfl
    have e2 : joinProps t ps
        = ((t.joinFields.zip (featRow t ps)).foldl
            (fun acc fv => setProp fv.1 (cellVal fv.2) acc) ps,
           decide (featRow t ps ≠ [])) := rfl
    rw [e1, hfr1, hg2, zip_map_foldl, hps1, applyFields_idem, e2, hfr,
      hg2, zip_map_foldl]

/-- `joinFeat` is idempotent under the same conditions. -/
lemma joinFeat_idem {t : JoinTable}
    (hck : t.collectionKey ∉ t.joinFields)
    (hshape : ∀ pr ∈ t.data, ∃ g : String → Cell, pr.2 = t.joinFields.map g)
    {ft ft1 : Feat} (h : joinFeat t ft = .ok ft1) :
    joinFeat t ft1 = .ok ft1 := by
  unfold joinFeat at h ⊢
  cases hps : ft.props with
  | none =>
    rw [hps] at h
    cases h
  | some ps =>
    rw [hps] at h
    cases h
    simp only []
    rw [joinProps_idem t hck hshape ps]

/-- `joinFeats` is idempotent (result list and count) under the same
conditions. -/
lemma joinFeats_idem {t : JoinTable}
    (hck : t.collectionKey ∉ t.joinFields)
    (hshape : ∀ pr ∈ t.data, ∃ g : String → Cell, pr.2 = t.joinFields.map g) :
    ∀ fts fts1 n, joinFeats t fts = .ok (fts1, n) →
      joinFeats t fts1 = .ok (fts1, n) := by
  intro fts
  induction fts with
  | nil =>
    intro fts1 n h
    cases h
    rfl
  | cons ft rest ih =>
    intro fts1 n h
    unfold joinFeats at h
    split at h
    · cases h
    next ft1 hft1 =>
      split at h
      · cases h
      next rest1 m hrest =>
        cases h
        unfold joinFeats
        rw [joinFeat_idem hck hshape hft1, ih rest1 m (by rw [hrest])]

/-- The `collectionKey` of a `process_csv` table is not among its
`joinFields`, whenever the provider's key fields are part of its schema. -/
lemma process_csv_ck_not_joinField {c : String} {prov : BaseProvider}
    {form : FormData} {fid : String} {now : Nat} {t : JoinTable}
    (hp : process_csv c prov form fid now = .ok t)
    (hkf : ∀ k ∈ prov.keyFields, k ∈ prov.fields) :
    t.collectionKey ∉ t.joinFields := by
  obtain ⟨lk, rk, fo, jf, data, hck, hjk, hjf, hfeat, hkmem, hparse, ht⟩ :=
    process_csv_ok hp
  obtain ⟨hjfeq, -⟩ := parsePhase_ok hparse
  subst ht
  intro hmem
  rw [hjfeq] at hmem
  exact (mem_computeJoinFields hmem).1 (hkf lk hkmem)

/-- C8 (confirmed, spec-modelled provider): for a table produced by
`process_csv` from a provider whose key fields belong to its schema — the
capability contract of §6, with the provider code outside this repository —
applying `perform_join` twice leaves the document exactly as one
application does. -/
theorem C8_perform_join_idempotent (c : String) (prov : BaseProvider)
    (form : FormData) (fid : String) (now : Nat) (t : JoinTable)
    (d d1 : GeoDoc)
    (hp : process_csv c prov form fid now = .ok t)
    (hkf : ∀ k ∈ prov.keyFields, k ∈ prov.fields)
    (h1 : perform_join t d = .ok d1) :
    perform_join t d1 = .ok d1 := by
  have hck := process_csv_ck_not_joinField hp hkf
  have hshape := process_csv_row_shape hp
  unfold perform_join at h1 ⊢
  split at h1
  · cases h1
  next ty hty =>
    split at h1
    next fts hfts hdec =>
      split at h1
      · cases h1
      next fts1 n hjf =>
        cases h1
        dsimp only
        rw [hty]
        dsimp only
        rw [hdec]
        dsimp only
        rw [joinFeats_idem hck hshape fts fts1 n (by rw [hjf])]
    next hmiss =>
      split at h1
      · cases h1
      next ft1 hft1 =>
        cases h1
        dsimp only
        rw [hty]
        dsimp only
        cases hfx : d.features with
        | none =>
          dsimp only
          rw [joinFeat_idem hck hshape hft1]
        | some fts =>
          cases hb : decide (ty = "FeatureCollection") with
          | true => exact absurd (hmiss fts hfx hb) (fun h => h)
          | false =>
            dsimp only
            rw [joinFeat_idem hck hshape hft1]

/-- A feature collection with one matching and one non-matching feature. -/
def idemDoc : GeoDoc :=
  { type := some "FeatureCollection"
    features := some [
      { props := some [("id", PVal.s "1"), ("name", PVal.s "F1")],
        joined := none },
      { props := some [("id", PVal.s "999"), ("name", PVal.s "F9")],
        joined := none } ]
    feat := { props := none, joined := none }
    numberJoined := none }

/-- The enriched collection: feature 1 gains the three join columns and
`joined = true`, feature 999 is untouched with `joined = false`,
`numberJoined = 1`. -/
def idemDocAfter : GeoDoc :=
  { type := some "FeatureCollection"
    features := some [
      { props := some [("id", PVal.s "1"), ("name", PVal.s "F1"),
                       ("city", PVal.s "City A"),
                       ("population", PVal.s "100000"),
                       ("area", PVal.s "50.5")],
        joined := some true },
      { props := some [("id", PVal.s "999"), ("name", PVal.s "F9")],
        joined := some false } ]
    feat := { props := none, joined := none }
    numberJoined := some 1 }

/-- Witness for C8: on the happy-path table and a concrete collection, the
second application of `perform_join` reproduces the once-enriched
document. -/
theorem C8_witness :
    process_csv "cities" happyProvider happyForm happyId 5 = .ok happyTable ∧
    (∀ k ∈ happyProvider.keyFields, k ∈ happyProvider.fields) ∧
    perform_join happyTable idemDoc = .ok idemDocAfter ∧
    perform_join happyTable idemDocAfter = .ok idemDocAfter :=
  ⟨by decide,
   by
     intro k hk
     simp only [happyProvider, List.mem_cons, List.not_mem_nil,
       or_false] at hk
     rcases hk with rfl | rfl <;> decide,
   by decide,
   C8_perform_join_idempotent "cities" happyProvider happyForm happyId 5
     happyTable idemDoc idemDocAfter (by decide)
     (by
       intro k hk
       simp only [happyProvider, List.mem_cons, List.not_mem_nil,
         or_false] at hk
       rcases hk with rfl | rfl <;> decide)
     (by decide)⟩

/-! ### Claim C9: cell values are strings -/

/-- A computed last-occurrence index is in range. -/
lemma lastIdxOf_lt_length {f : String} :
    ∀ {l : List String} {i : Nat}, lastIdxOf f l = some i → i < l.length := by
  intro l
  induction l with
  | nil =>
    intro i h
    cases h
  | cons a t ih =>
    intro i h
    unfold lastIdxOf at h
    split at h
    next j hj =>
      cases h
      exact Nat.succ_lt_succ (ih hj)
    next hnone =>
      split at h
      · cases h
        exact Nat.succ_pos _
      · cases h

/-- A header member has a last-occurrence index. -/
lemma lastIdxOf_isSome_of_mem {f : String} :
    ∀ {l : List String}, f ∈ l → (lastIdxOf f l).isSome = true := by
  intro l
  induction l with
  | nil =>
    intro h
    cases h
  | cons a t ih =>
    intro h
    unfold lastIdxOf
    cases ht : lastIdxOf f t with
    | some j => rfl
    | none =>
      rcases List.mem_cons.mp h with rfl | hmem
      · rw [if_pos rfl]
        rfl
      · have := ih hmem
        rw [ht] at this
        cases this

/-- `ingestRows_forall` with the processed record in scope of the new-entry
hypothesis. -/
lemma ingestRows_forall_mem {header : List String} {rk : String}
    {jf : List String} (P : String × List Cell → Prop) :
    ∀ recs, (∀ raw cells, cells ∈ recs → pystrip raw ≠ "" →
        P (pystrip raw, jf.map (cellAt header cells))) →
      ∀ acc out, ingestRows header rk jf recs acc = .ok out →
        (∀ pr ∈ acc, P pr) → ∀ pr ∈ out, P pr := by
  intro recs
  induction recs with
  | nil =>
    intro _ acc out h hacc
    simp only [ingestRows] at h
    cases h
    exact hacc
  | cons cells rest ih =>
    intro hnew acc out h hacc
    simp only [ingestRows] at h
    split at h
    · cases h
    · exact ih (fun raw cs hcs => hnew raw cs (List.mem_cons_of_mem _ hcs))
        acc out h hacc
    · split at h
      · cases h
      next raw heq =>
        split at h
        · cases h
        next hkey =>
          split at h
          · cases h
          · refine ih (fun raw cs hcs =>
              hnew raw cs (List.mem_cons_of_mem _ hcs)) _ out h ?_
            intro pr hpr
            rcases List.mem_append.mp hpr with hl | hr
            · exact hacc pr hl
            · rcases List.mem_singleton.mp hr with rfl
              exact hnew raw cells (List.mem_cons_self _ _) hkey

/-- C9 (corrected): when every physical record of the upload is either blank
or carries at least as many cells as the header row, every cell value of
the produced table is a string (`isSome` in the model, where `none` is
Python `None` / JSON `null`).  Without that proviso a short data row yields
`None` for its missing trailing columns — see the counterexample. -/
theorem C9_cells_are_strings (c : String) (prov : BaseProvider)
    (form : FormData) (fid : String) (now : Nat) (t : JoinTable)
    (hp : process_csv c prov form fid now = .ok t)
    (hlen : ∀ fo, form.joinFile = some fo → ∀ r ∈ fo.lines, r = [] ∨
      (fo.lines.getD ((form.csvHeaderRow.getD 1).toNat - 1) []).length
        ≤ r.length) :
    ∀ pr ∈ t.data, ∀ v ∈ pr.2, v.isSome = true := by
  obtain ⟨lk, rk, fo, jf, data, hck, hjk, hjf, hfeat, hkmem, hparse, ht⟩ :=
    process_csv_ok hp
  obtain ⟨hjfeq, hing⟩ := parsePhase_ok hparse
  subst ht
  intro pr hpr
  refine ingestRows_forall_mem
    (fun pr => ∀ v ∈ pr.2, v.isSome = true) _ ?_ _ _ hing (by simp) pr hpr
  intro raw cells hcells _ v hv
  rcases List.mem_map.mp hv with ⟨f, hf, hfv⟩
  subst hfv
  have hfh : f ∈ fo.lines.getD ((form.csvHeaderRow.getD 1).toNat - 1) [] := by
    rw [hjfeq] at hf
    exact (mem_computeJoinFields hf).2.1
  have hmemlines : cells ∈ fo.lines := by
    have h1 := List.drop_subset _ _ hcells
    have h2 := List.mem_of_mem_filter h1
    exact List.drop_subset _ _ h2
  have hne : cells ≠ [] := by
    have h1 := List.drop_subset _ _ hcells
    have := List.of_mem_filter h1
    simpa using this
  have hlen2 := (hlen fo hjf cells hmemlines).resolve_left hne
  cases hidx : lastIdxOf f (fo.lines.getD ((form.csvHeaderRow.getD 1).toNat - 1) []) with
  | none =>
    have := lastIdxOf_isSome_of_mem hfh
    rw [hidx] at this
    cases this
  | some i =>
    have hi : i < cells.length :=
      Nat.lt_of_lt_of_le (lastIdxOf_lt_length hidx) hlen2
    unfold cellAt
    rw [hidx]
    show (cells.get? i).isSome = true
    rw [List.get?_eq_get hi]
    rfl

/-- A data row shorter than the header. -/
def shortCSV : FileObject :=
  { name := "short.csv", contentType := "text/csv",
    lines := [["id", "city"], ["1"]] }

/-- Form data for the short-row upload. -/
def shortForm : FormData :=
  { collectionKey := some "id", joinKey := some "id",
    joinFile := some shortCSV, joinFields := none, csvDelimiter := none,
    csvHeaderRow := none, csvDataStartRow := none }

/-- Fresh id for the short-row upload. -/
def shortId : String := "5a0d9f3e-7b2c-4d4e-9f0a-1b2c3d4e5f60"

/-- The table the short-row upload materializes: the missing `city` cell is
Python `None` (JSON `null`), not a string. -/
def shortTable : JoinTable :=
  { id := shortId, timeStamp := 5, collectionId := "cities",
    collectionKey := "id", joinSource := "short.csv", joinKey := "id",
    joinFields := ["city"], numberOfRows := 1, data := [("1", [none])] }

/-- C9 counterexample: a CSV data row with fewer cells than the header
declares columns produces a `None`/`null` cell value — `DictReader`'s
`restval` — not a string, refuting the claim's parenthetical. -/
theorem C9_counterexample :
    process_csv "cities" happyProvider shortForm shortId 5 = .ok shortTable ∧
    shortTable.data = [("1", [none])] ∧
    (none : Cell).isSome = false :=
  ⟨by decide, by decide, by decide⟩

/-- Witness for the amended C9 at the happy-path upload, whose rows all
carry the full four columns. -/
theorem C9_witness :
    process_csv "cities" happyProvider happyForm happyId 5 = .ok happyTable ∧
    (∀ pr ∈ happyTable.data, ∀ v ∈ pr.2, v.isSome = true) := by
  refine ⟨by decide, ?_⟩
  refine C9_cells_are_strings "cities" happyProvider happyForm happyId 5
    happyTable (by decide) ?_
  intro fo hfo r hr
  have h2 : some happyCSV = some fo := hfo
  cases Option.some.inj h2
  right
  simp only [happyCSV] at hr
  fin_cases hr <;> decide

/-! ### Claim C5: persist/read round-trip -/

/-- Applying cleanup deletions only shrinks documents and files. -/
lemma applyDeletions_sub :
    ∀ dels (st : Store) (c : String),
      ((applyDeletions st c dels).docs ⊆ st.docs) ∧
      ((applyDeletions st c dels).files ⊆ st.files) := by
  intro dels
  induction dels with
  | nil =>
    intro st c
    exact ⟨fun _ h => h, fun _ h => h⟩
  | cons x rest ih =>
    intro st c
    rcases x with ⟨ts, sourceId, ref⟩
    have h := ih { docs := removeDoc st.docs c sourceId,
                   files := deleteFile st.files ref } c
    refine ⟨fun d hd => ?_, fun p hp => ?_⟩
    · exact List.mem_of_mem_filter (h.1 hd)
    · exact List.mem_of_mem_filter (h.2 hp)

/-- A cleanup pass over one collection only shrinks documents and files. -/
lemma cleanupCollection_sub (maxDays maxFiles now : Nat) (st : Store)
    (c : String) (srcs : List SourceDoc) :
    ((cleanupCollection maxDays maxFiles now st c srcs).docs ⊆ st.docs) ∧
    ((cleanupCollection maxDays maxFiles now st c srcs).files ⊆ st.files) := by
  unfold cleanupCollection
  refine ⟨fun d hd => ?_, fun p hp => ?_⟩
  · exact (applyDeletions_sub _ _ _).1 ((applyDeletions_sub _ _ _).1 hd)
  · exact (applyDeletions_sub _ _ _).2 ((applyDeletions_sub _ _ _).2 hp)

/-- Any fold of store-shrinking steps shrinks the store. -/
lemma foldl_store_sub (step : Store → String → Store)
    (hstep : ∀ s b, ((step s b).docs ⊆ s.docs) ∧ ((step s b).files ⊆ s.files)) :
    ∀ (l : List String) (s : Store),
      ((l.foldl step s).docs ⊆ s.docs) ∧ ((l.foldl step s).files ⊆ s.files) := by
  intro l
  induction l with
  | nil =>
    intro s
    exact ⟨fun _ h => h, fun _ h => h⟩
  | cons b rest ih =>
    intro s
    have h1 := hstep s b
    have h2 := ih (step s b)
    exact ⟨fun d hd => h1.1 (h2.1 hd), fun p hp => h1.2 (h2.2 hp)⟩

/-- Membership after a TinyDB upsert: an old document or the upserted one. -/
lemma mem_upsertDoc {docs : List SourceDoc} {x d : SourceDoc}
    (h : d ∈ upsertDoc docs x) : d ∈ docs ∨ d = x := by
  unfold upsertDoc at h
  split at h
  · rcases List.mem_map.mp h with ⟨q, hq, hqd⟩
    by_cases hcond : q.id = x.id ∧ q.collectionId = x.collectionId
    · rw [if_pos hcond] at hqd
      exact Or.inr hqd.symm
    · rw [if_neg hcond] at hqd
      exact Or.inl (hqd ▸ hq)
  · rcases List.mem_append.mp h with h1 | h1
    · exact Or.inl h1
    · exact Or.inr (List.mem_singleton.mp h1)

/-- Membership after folding upserts: an original document or an upserted
one. -/
lemma mem_foldl_upsert :
    ∀ (l : List SourceDoc) (docs : List SourceDoc) (d : SourceDoc),
      d ∈ l.foldl upsertDoc docs → d ∈ docs ∨ d ∈ l := by
  intro l
  induction l with
  | nil =>
    intro docs d h
    exact Or.inl h
  | cons x rest ih =>
    intro docs d h
    rcases ih (upsertDoc docs x) d h with h1 | h1
    · rcases mem_upsertDoc h1 with h2 | h2
      · exact Or.inl h2
      · exact Or.inr (h2 ▸ List.mem_cons_self x rest)
    · exact Or.inr (List.mem_cons_of_mem x h1)

/-- After a cleanup pass, every document id was an index id or a stored
file's table id, and every file was already stored. -/
lemma cleanup_sources_chars (maxDays maxFiles now : Nat) (st : Store) :
    (∀ d ∈ (cleanup_sources maxDays maxFiles now st).docs,
      d ∈ st.docs ∨ ∃ p ∈ st.files, d.id = p.2.id) ∧
    ((cleanup_sources maxDays maxFiles now st).files ⊆ st.files) := by
  unfold cleanup_sources
  have hsub := foldl_store_sub
    (fun acc c => cleanupCollection maxDays maxFiles now acc c
      ((build_refs_docs st).filter (fun d => d.collectionId = c)))
    (fun s b => cleanupCollection_sub maxDays maxFiles now s b _)
    (((build_refs_docs st).map (fun d => d.collectionId)).eraseDups)
    { st with docs := (build_refs_docs st).foldl upsertDoc st.docs }
  constructor
  · intro d hd
    have h1 := hsub.1 hd
    rcases mem_foldl_upsert _ _ _ h1 with h2 | h2
    · exact Or.inl h2
    · unfold build_refs_docs at h2
      rcases List.mem_map.mp h2 with ⟨p, hp, hpd⟩
      exact Or.inr ⟨p, hp, by rw [← hpd]⟩
  · intro p hp
    exact hsub.2 hp

/-- `find?` skips a prefix with no match. -/
lemma find?_append_right {α : Type} {p : α → Bool} {l1 l2 : List α}
    (h : ∀ x ∈ l1, p x = false) :
    (l1 ++ l2).find? p = l2.find? p := by
  induction l1 with
  | nil => rfl
  | cons a t ih =>
    rw [List.cons_append, List.find?_cons_of_neg _ (by
      rw [h a (List.mem_cons_self a t)]
      exact Bool.false_ne_true)]
    exact ih (fun x hx => h x (List.mem_cons_of_mem a hx))

/-- `lookup` skips a prefix with no matching key. -/
lemma lookup_append_right {β : Type} {l1 l2 : List (String × β)} {k : String}
    (h : ∀ p ∈ l1, p.1 ≠ k) :
    (l1 ++ l2).lookup k = l2.lookup k := by
  induction l1 with
  | nil => rfl
  | cons a t ih =>
    rw [List.cons_append, List.lookup_cons]
    have hkf : (k == a.1) = false := by
      simp only [beq_eq_false_iff_ne, ne_eq]
      intro hc
      exact h a (List.mem_cons_self a t) hc.symm
    simp only [hkf]
    exact ih (fun p hp => h p (List.mem_cons_of_mem a hp))

/-- C5 (confirmed): a successful `process_csv` step with a fresh valid UUID
persists table `t` so that an immediate `read_join_source (c, t.id)`
returns a table equal to `t` (deep equality: JSON round-trips losslessly in
the model) and `t.id` appears among the ids `list_sources c` returns. -/
theorem C5_round_trip (st : Store) (maxDays maxFiles : Nat) (c : String)
    (prov : BaseProvider) (form : FormData) (fid : String) (now : Nat)
    (t : JoinTable) (st1 : Store)
    (hstep : process_csv_step st maxDays maxFiles c prov form fid now
      = (.ok t, st1))
    (hvalid : valid_id fid = true)
    (hdocs : ∀ d ∈ st.docs, d.id ≠ fid)
    (hfiles : ∀ p ∈ st.files, p.2.id ≠ fid ∧ p.1 ≠ make_source_path fid) :
    valid_id t.id = true ∧
    (read_join_source st1 c t.id).1 = .ok t ∧
    ∃ d ∈ (list_sources st1 c).1, d.id = t.id := by
  unfold process_csv_step at hstep
  cases hcsv : process_csv c prov form fid now with
  | error e =>
    rw [hcsv] at hstep
    cases hstep
  | ok t0 =>
    rw [hcsv] at hstep
    simp only [] at hstep
    have h1 : (Except.ok t0 : Except PyErr JoinTable) = .ok t :=
      congrArg Prod.fst hstep
    have ht0 : t0 = t := Except.ok.inj h1
    subst ht0
    have hst1 : st1 = putTable (cleanup_sources maxDays maxFiles now st) t0 :=
      (congrArg Prod.snd hstep).symm
    obtain ⟨lk, rk, fo, jf, data, hck, hjk, hjf, hfeat, hkmem, hparse, ht⟩ :=
      process_csv_ok hcsv
    have hid : t0.id = fid := by rw [ht]
    have hcid : t0.collectionId = c := by rw [ht]
    have hchars := cleanup_sources_chars maxDays maxFiles now st
    set stc := cleanup_sources maxDays maxFiles now st with hstc
    have hcdocs : ∀ d ∈ stc.docs, d.id ≠ fid := by
      intro d hd
      rcases hchars.1 d hd with h1 | ⟨p, hp, hpe⟩
      · exact hdocs d h1
      · rw [hpe]
        exact (hfiles p hp).1
    have hcfiles : ∀ p ∈ stc.files, p.1 ≠ make_source_path fid := by
      intro p hp
      exact (hfiles p (hchars.2 hp)).2
    have hput : st1.docs = stc.docs ++
        [(⟨t0.id, t0.collectionId, t0.timeStamp, t0.joinSource,
           make_source_path t0.id⟩ : SourceDoc)] ∧
        st1.files = stc.files ++ [(make_source_path t0.id, t0)] := by
      rw [hst1]
      unfold putTable
      simp only []
      refine ⟨trivial, ?_⟩
      rw [if_neg (by
        intro hany
        rcases List.any_eq_true.mp hany with ⟨p, hp, hpe⟩
        refine hcfiles p hp ?_
        rw [hid] at hpe
        simpa using hpe)]
    have hfind : st1.docs.find?
        (fun d => d.id = t0.id ∧ d.collectionId = c) = some
        (⟨t0.id, t0.collectionId, t0.timeStamp, t0.joinSource,
          make_source_path t0.id⟩ : SourceDoc) := by
      rw [hput.1, find?_append_right (by
        intro d hd
        simp only [decide_eq_false_iff_not]
        intro hcon
        refine hcdocs d hd ?_
        rw [← hid]
        exact hcon.1)]
      rw [List.find?_cons_of_pos _ (by
        simp only [decide_eq_true_eq]
        exact ⟨trivial, hcid⟩)]
    have hanyfile : st1.files.any
        (fun p => p.1 = make_source_path t0.id) = true := by
      rw [hput.2]
      refine List.any_eq_true.mpr ⟨(make_source_path t0.id, t0), ?_, by simp⟩
      exact List.mem_append.mpr (Or.inr (List.mem_singleton.mpr rfl))
    have hlookup : st1.files.lookup (make_source_path t0.id) = some t0 := by
      rw [hput.2, lookup_append_right (by
        intro p hp
        rw [hid]
        exact hcfiles p hp)]
      exact List.lookup_cons_self
    refine ⟨by rw [hid]; exact hvalid, ?_, ?_⟩
    · unfold read_join_source
      rw [if_neg (by rw [hid]; simp [hvalid])]
      rw [find_source_path_found hfind hanyfile]
      simp only []
      rw [hlookup]
    · refine ⟨⟨t0.id, t0.collectionId, t0.timeStamp, t0.joinSource,
        make_source_path t0.id⟩, ?_, rfl⟩
      unfold list_sources
      simp only []
      rw [List.mem_filter, List.mem_filter]
      refine ⟨⟨?_, by simpa using hcid⟩, ?_⟩
      · rw [hput.1]
        exact List.mem_append.mpr (Or.inr (List.mem_singleton.mpr rfl))
      · simpa using hanyfile

/-- A store with no documents and no files. -/
def emptyStore : Store := ⟨[], []⟩

/-- The store after persisting the happy-path table into the empty store. -/
def happyStore : Store := putTable emptyStore happyTable

/-- Witness for C5: the happy-path ingest into an empty store, read back
by id and listed. -/
theorem C5_witness :
    process_csv_step emptyStore 0 0 "cities" happyProvider happyForm happyId 5
      = (.ok happyTable, happyStore) ∧
    valid_id happyId = true ∧
    valid_id happyTable.id = true ∧
    (read_join_source happyStore "cities" happyTable.id).1 = .ok happyTable ∧
    ∃ d ∈ (list_sources happyStore "cities").1, d.id = happyTable.id := by
  have h := C5_round_trip emptyStore 0 0 "cities" happyProvider happyForm
    happyId 5 happyTable happyStore (by decide) (by decide)
    (by intro d hd; cases hd) (by intro p hp; cases hp)
  exact ⟨by decide, by decide, h.1, h.2.1, h.2.2⟩

/-! ### Claim C10: the factory never raises -/

/-- The well-typed shapes of a `server.joins` value: null, or a dict whose
`source_dir` (when present) is falsy or a string. -/
def joinsShapeOk (jv : CVal) : Prop :=
  jv = .null ∨ ∃ es, jv = .dict es ∧
    ∀ sd, ((es.find? (fun p => p.1 = "source_dir")).map Prod.snd) = some sd →
      cvalTruthy sd = false ∨ ∃ s, sd = .str s

/-- The well-typed shapes of a configuration for `from_config`: the
`server` member (when present) is a dict and its `joins` member (when
present) is shaped as above. -/
def configShapeOk (config : List (String × CVal)) : Prop :=
  ∀ sv, ((config.find? (fun p => p.1 = "server")).map Prod.snd) = some sv →
    ∃ es, sv = .dict es ∧
      ∀ jv, ((es.find? (fun p => p.1 = "joins")).map Prod.snd) = some jv →
        joinsShapeOk jv

/-- Whether a `server.joins` value carries a truthy `source_dir`, i.e.
whether `from_config` would attempt `mkdir` of a configured directory
(manager.py lines 119-126). -/
def joins_source_dir_truthy : CVal → Bool
  | .dict es =>
    cvalTruthy (((es.find? (fun p => p.1 = "source_dir")).map Prod.snd).getD .null)
  | _ => false

/-- The `server.joins` member as `from_config` extracts it (manager.py line
109): `none` when OGC API - Joins is not configured, i.e. the `server`
member (defaulting to an empty dict) carries no `joins` key.  (On a
malformed non-dict `server` the code raises before any extraction; the
value is then immaterial.) -/
def joins_value (config : List (String × CVal)) : Option CVal :=
  match ((config.find? (fun p => p.1 = "server")).map Prod.snd).getD (.dict []) with
  | .dict es => (es.find? (fun p => p.1 = "joins")).map Prod.snd
  | _ => none

/-- Whether the configuration makes `from_config` attempt `mkdir` of a
configured source directory. -/
def source_dir_configured (config : List (String × CVal)) : Bool :=
  match joins_value config with
  | some jv => joins_source_dir_truthy jv
  | none => false

/-- `joins_body` on a well-shaped joins value never raises, and answers the
disabled sentinel whenever `mkdir` of a configured truthy source directory,
the write probe or the constructor fails. -/
lemma joins_body_total (fs : FSEnv) (jv : CVal) (hshape : joinsShapeOk jv) :
    (∃ r, joins_body fs jv = .ok r) ∧
    (joins_source_dir_truthy jv = true → fs.mkdirOk = false →
      joins_body fs jv = .ok none) ∧
    (fs.writeOk = false → joins_body fs jv = .ok none) ∧
    (fs.writeOk = true → fs.ctorOk = false → joins_body fs jv = .ok none) := by
  have hbody : ∀ joinsConfig : List (String × CVal),
      (∀ sd, ((joinsConfig.find? (fun p => p.1 = "source_dir")).map Prod.snd)
        = some sd → cvalTruthy sd = false ∨ ∃ s, sd = .str s) →
      (∃ r, joins_body fs (.dict joinsConfig) = .ok r) ∧
      (cvalTruthy (((joinsConfig.find?
          (fun p => p.1 = "source_dir")).map Prod.snd).getD .null) = true →
        fs.mkdirOk = false → joins_body fs (.dict joinsConfig) = .ok none) ∧
      (fs.writeOk = false → joins_body fs (.dict joinsConfig) = .ok none) ∧
      (fs.writeOk = true → fs.ctorOk = false →
        joins_body fs (.dict joinsConfig) = .ok none) := by
    intro joinsConfig hsd
    have hdir : ∃ dirOk, ((if cvalTruthy (((joinsConfig.find?
        (fun p => p.1 = "source_dir")).map Prod.snd).getD .null) then
        match ((joinsConfig.find? (fun p => p.1 = "source_dir")).map Prod.snd).getD .null with
        | .str _ => (.ok fs.mkdirOk : Except PyErr Bool)
        | _ => .error (.typeError "argument should be a str or an os.PathLike object")
      else .ok true) = .ok dirOk)
      ∧ (cvalTruthy (((joinsConfig.find?
          (fun p => p.1 = "source_dir")).map Prod.snd).getD .null) = true →
         dirOk = fs.mkdirOk) := by
      cases hfind : (joinsConfig.find? (fun p => p.1 = "source_dir")).map Prod.snd with
      | none =>
        exact ⟨true, rfl, fun ht => absurd ht (by decide)⟩
      | some sd =>
        rcases hsd sd hfind with hfalsy | ⟨s, rfl⟩
        · refine ⟨true, ?_, ?_⟩
          · simp only [Option.getD_some]
            rw [if_neg (by simp [hfalsy])]
          · intro ht
            simp only [Option.getD_some] at ht
            rw [hfalsy] at ht
            cases ht
        · cases hb : cvalTruthy (CVal.str s) with
          | false =>
            refine ⟨true, ?_, ?_⟩
            · simp only [Option.getD_some]
              rw [if_neg (by simp [hb])]
            · intro ht
              simp only [Option.getD_some] at ht
              rw [hb] at ht
              cases ht
          | true =>
            refine ⟨fs.mkdirOk, ?_, fun _ => rfl⟩
            simp only [Option.getD_some]
            rw [if_pos (by simp [hb])]
    obtain ⟨dirOk, hdirOk, hdirTruthy⟩ := hdir
    have hred : joins_body fs (.dict joinsConfig)
        = (if ¬ dirOk then .ok none
           else if ¬ fs.writeOk then .ok none
           else if fs.ctorOk then
             .ok (some ⟨coerceLimit ((joinsConfig.find?
                    (fun p => p.1 = "max_days")).map Prod.snd),
                  coerceLimit ((joinsConfig.find?
                    (fun p => p.1 = "max_files")).map Prod.snd)⟩)
           else .ok none) := by
      unfold joins_body
      simp only []
      rw [hdirOk]
    rw [hred]
    by_cases hd : dirOk = true
    · rw [if_neg (by simp [hd])]
      cases hw : fs.writeOk with
      | false =>
        rw [if_pos (by simp)]
        refine ⟨⟨none, rfl⟩, fun _ _ => rfl, fun _ => rfl, ?_⟩
        intro h _
        cases h
      | true =>
        rw [if_neg (by simp)]
        cases hc : fs.ctorOk with
        | false =>
          rw [if_neg (by simp)]
          refine ⟨⟨none, rfl⟩, fun _ _ => rfl, ?_, fun _ _ => rfl⟩
          intro h
          cases h
        | true =>
          rw [if_pos rfl]
          refine ⟨⟨_, rfl⟩, ?_, ?_, ?_⟩
          · intro ht hm
            have he := hdirTruthy ht
            rw [hd, hm] at he
            cases he
          · intro h
            cases h
          · intro _ h
            cases h
    · rw [if_pos (by simpa using hd)]
      exact ⟨⟨none, rfl⟩, fun _ _ => rfl, fun _ => rfl, fun _ _ => rfl⟩
  rcases hshape with rfl | ⟨es, rfl, hsd⟩
  · have hnull : joins_body fs .null = joins_body fs (.dict []) := rfl
    rw [hnull]
    exact hbody [] (by
      intro sd hsd
      simp at hsd)
  · exact hbody es hsd

/-- C10 (corrected): on every WELL-SHAPED configuration — `server` absent or
a dict, `server.joins` absent, null or a dict whose `source_dir` is absent,
falsy or a string — `from_config` returns a manager or `None` and never
raises; it returns `None` when joins is not configured (no `server.joins`
member), when the configured source directory cannot be created (`mkdir`
fails on a truthy `source_dir`) or written to (the write probe fails), and
when manager construction raises.  A malformed configuration DOES propagate
an exception — see the counterexample. -/
theorem C10_from_config_total (config : List (String × CVal)) (fs : FSEnv)
    (hshape : configShapeOk config) :
    (∃ r, from_config config fs = .ok r) ∧
    (joins_value config = none → from_config config fs = .ok none) ∧
    (source_dir_configured config = true → fs.mkdirOk = false →
      from_config config fs = .ok none) ∧
    (fs.writeOk = false → from_config config fs = .ok none) ∧
    (fs.writeOk = true → fs.ctorOk = false →
      from_config config fs = .ok none) := by
  cases hsv : (config.find? (fun p => p.1 = "server")).map Prod.snd with
  | none =>
    have hr : from_config config fs = .ok none := by
      unfold from_config
      rw [hsv]
      rfl
    have hjn : joins_value config = none := by
      unfold joins_value
      rw [hsv]
      rfl
    have hsd : source_dir_configured config = false := by
      unfold source_dir_configured
      rw [hjn]
    refine ⟨⟨none, hr⟩, fun _ => hr, ?_, fun _ => hr, fun _ _ => hr⟩
    intro ht _
    rw [hsd] at ht
    cases ht
  | some sv =>
    obtain ⟨es, rfl, hjoins⟩ := hshape sv hsv
    have hred : from_config config fs
        = match (es.find? (fun p => p.1 = "joins")).map Prod.snd with
          | none => .ok none
          | some jv => joins_body fs jv := by
      unfold from_config
      rw [hsv]
      rfl
    have hjveq : ∀ o, (es.find? (fun p => p.1 = "joins")).map Prod.snd = o →
        joins_value config = o := by
      intro o ho
      unfold joins_value
      rw [hsv]
      exact ho
    cases hjv : (es.find? (fun p => p.1 = "joins")).map Prod.snd with
    | none =>
      have hr : from_config config fs = .ok none := by
        rw [hred, hjv]
      have hjn : joins_value config = none := hjveq none hjv
      have hsd : source_dir_configured config = false := by
        unfold source_dir_configured
        rw [hjn]
      refine ⟨⟨none, hr⟩, fun _ => hr, ?_, fun _ => hr, fun _ _ => hr⟩
      intro ht _
      rw [hsd] at ht
      cases ht
    | some jv =>
      have hr : from_config config fs = joins_body fs jv := by
        rw [hred, hjv]
      have hjs : joins_value config = some jv := hjveq (some jv) hjv
      have h := joins_body_total fs jv (hjoins jv hjv)
      refine ⟨?_, ?_, ?_, ?_, ?_⟩
      · obtain ⟨r, hjb⟩ := h.1
        exact ⟨r, by rw [hr, hjb]⟩
      · intro hn
        rw [hjs] at hn
        cases hn
      · intro ht hm
        have ht2 : joins_source_dir_truthy jv = true := by
          unfold source_dir_configured at ht
          rw [hjs] at ht
          exact ht
        rw [hr]
        exact h.2.1 ht2 hm
      · intro hw
        rw [hr]
        exact h.2.2.1 hw
      · intro hw hc
        rw [hr]
        exact h.2.2.2 hw hc

/-- C10 counterexample: the configuration dict `{'server': None}` makes
`from_config` raise `TypeError` (`None['joins']` is not caught: the
`except` at manager.py line 109 handles only `KeyError`), refuting "never
propagates an exception". -/
theorem C10_counterexample :
    from_config [("server", CVal.null)] ⟨true, true, true⟩
      = .error (.typeError "object is not subscriptable") := by
  rfl

/-- Witness for the amended C10 at concrete well-shaped configurations: a
fully configured store, a configuration whose server dict carries no joins
member, an `mkdir` failure on the configured truthy source directory, a
write-probe failure and a constructor failure. -/
theorem C10_witness :
    configShapeOk [("server", CVal.dict [("joins",
      CVal.dict [("source_dir", CVal.str "/data/joins"),
                 ("max_days", CVal.int 7), ("max_files", CVal.int 5)])])] ∧
    (∃ r, from_config [("server", CVal.dict [("joins",
      CVal.dict [("source_dir", CVal.str "/data/joins"),
                 ("max_days", CVal.int 7), ("max_files", CVal.int 5)])])]
      ⟨true, true, true⟩ = .ok r) ∧
    from_config [("server", CVal.dict [("bind", CVal.str "0.0.0.0")])]
      ⟨true, true, true⟩ = .ok none ∧
    from_config [("server", CVal.dict [("joins",
      CVal.dict [("source_dir", CVal.str "/data/joins"),
                 ("max_days", CVal.int 7), ("max_files", CVal.int 5)])])]
      ⟨false, true, true⟩ = .ok none ∧
    from_config [("server", CVal.dict [("joins",
      CVal.dict [("source_dir", CVal.str "/data/joins"),
                 ("max_days", CVal.int 7), ("max_files", CVal.int 5)])])]
      ⟨true, false, true⟩ = .ok none ∧
    from_config [("server", CVal.dict [("joins",
      CVal.dict [("source_dir", CVal.str "/data/joins"),
                 ("max_days", CVal.int 7), ("max_files", CVal.int 5)])])]
      ⟨true, true, false⟩ = .ok none := by
  have hshape : configShapeOk [("server", CVal.dict [("joins",
      CVal.dict [("source_dir", CVal.str "/data/joins"),
                 ("max_days", CVal.int 7), ("max_files", CVal.int 5)])])] := by
    intro sv hsv
    refine ⟨[("joins", CVal.dict [("source_dir", CVal.str "/data/joins"),
      ("max_days", CVal.int 7), ("max_files", CVal.int 5)])], ?_, ?_⟩
    · cases hsv
      rfl
    · intro jv hjv
      right
      refine ⟨[("source_dir", CVal.str "/data/joins"),
        ("max_days", CVal.int 7), ("max_files", CVal.int 5)], ?_, ?_⟩
      · cases hjv
        rfl
      · intro sd hsd
        right
        cases hsd
        exact ⟨"/data/joins", rfl⟩
  have hshape2 : configShapeOk
      [("server", CVal.dict [("bind", CVal.str "0.0.0.0")])] := by
    intro sv hsv
    refine ⟨[("bind", CVal.str "0.0.0.0")], ?_, ?_⟩
    · cases hsv
      rfl
    · intro jv hjv
      cases hjv
  refine ⟨hshape,
    (C10_from_config_total _ ⟨true, true, true⟩ hshape).1,
    (C10_from_config_total _ ⟨true, true, true⟩ hshape2).2.1 rfl,
    (C10_from_config_total _ ⟨false, true, true⟩ hshape).2.2.1 (by decide) rfl,
    (C10_from_config_total _ ⟨true, false, true⟩ hshape).2.2.2.1 rfl,
    (C10_from_config_total _ ⟨true, true, false⟩ hshape).2.2.2.2 rfl rfl⟩

end Joins
